import Mathlib

/-!
Verification of the reflective-RAG core of the EchoCheck repository.

The development shallowly embeds:
* `src/utils/helpers.py` — `parse_critique_response` (free-text critique parsing,
  including the exact scanning semantics of the two `re.findall` calls with
  `re.IGNORECASE`);
* `src/core/critic.py` — `_calculate_confidence_score`, `critique_response`,
  `generate_improved_query` (the LLM call is an oracle);
* `src/core/graph.py` — the `RAGState` record, the seven workflow node
  functions, the `_should_improve` branch, the workflow graph built by
  `_build_workflow`, and its execution (`run`).

External collaborators that are pure network I/O (the vector-store retriever,
the two generator calls, and the raw LLM invocations inside the critic) are
modelled as oracles in an `Env` record, each returning `Except String _`
(`error` models a raised Python exception).  Python strings are modelled as
Lean `String`/`List Char` with `Char.toLower` standing in for `str.lower`
(ASCII model) and floats `0.9/0.7/0.5/0.3` as exact rationals.
-/

namespace EchoCheck

/-! ### Character/string primitives (Python `str` and `re` operations, ASCII model) -/

/-- Python's whitespace class (regex `\s`, `str.strip`), ASCII portion. -/
def pyIsSpace (c : Char) : Bool :=
  c = ' ' || c = '\t' || c = '\n' || c = '\r' || c = '\x0b' || c = '\x0c'

/-- `str.lower` on a char list (ASCII model). -/
def pyLower (l : List Char) : List Char := l.map Char.toLower

/-- `str.strip()`: remove leading and trailing whitespace. -/
def pyStrip (l : List Char) : List Char :=
  ((l.dropWhile pyIsSpace).reverse.dropWhile pyIsSpace).reverse

/-- Exact prefix test: the pattern matches the start of the text. -/
def startsWith : List Char → List Char → Bool
  | [], _ => true
  | _ :: _, [] => false
  | p :: ps, c :: cs => p = c && startsWith ps cs

/-- Python's substring test `pat in s`. -/
def hasSubstr (pat : List Char) : List Char → Bool
  | [] => pat.isEmpty
  | c :: cs => startsWith pat (c :: cs) || hasSubstr pat cs

/-- Case-insensitive prefix match: `pat` is given lower-case and compared
against the text's characters lowered (model of `re.IGNORECASE`). -/
def matchesCI : List Char → List Char → Bool
  | [], _ => true
  | _ :: _, [] => false
  | p :: ps, c :: cs => p = c.toLower && matchesCI ps cs

/-- Scanner for `re.findall(r'flaw:\s*([^.]+)', s, re.IGNORECASE)`.

At each position: if the next five characters match `flaw:` case-insensitively,
let `R` be the maximal following run of non-period characters.  If `R` is empty
the match fails and scanning advances one character.  Otherwise the greedy
`\s*` takes the whitespace prefix `W` of `R` and `[^.]+` captures the rest —
unless `R` is all whitespace, in which case `\s*` backtracks one character and
the capture is the last whitespace character of `R`.  Either way the whole
match consumes through the end of `R` and scanning resumes there
(non-overlapping matches, as `re.findall` produces). -/
def flawScanF : Nat → List Char → List (List Char)
  | 0, _ => []
  | _, [] => []
  | fuel + 1, c :: cs =>
    if matchesCI ("flaw:".toList) (c :: cs) then
      let after := (c :: cs).drop 5
      let R := after.takeWhile (fun ch => ch ≠ '.')
      if R.isEmpty then flawScanF fuel cs
      else
        let W := R.takeWhile pyIsSpace
        let k := if W.length = R.length then R.length - 1 else W.length
        R.drop k :: flawScanF fuel (after.drop R.length)
    else flawScanF fuel cs

/-- The flaw scanner at its canonical fuel (the text length, which always
suffices: every step of the scan consumes at least one character). -/
def flawScan (l : List Char) : List (List Char) := flawScanF l.length l

/-- Split a run `S` of non-period characters at its last "usable" colon, i.e.
the last `:` that still has at least one character of `S` after it — exactly
the colon the greedy `[^.]*:` of `suggest[^.]*:\s*([^.]+)` backtracks to.
Returns `(b, a)` with `S = b ++ ':' :: a` and `a ≠ []`. -/
def splitLastUsableColon : List Char → Option (List Char × List Char)
  | [] => none
  | c :: cs =>
    match splitLastUsableColon cs with
    | some (b, a) => some (c :: b, a)
    | none => if c = ':' && !cs.isEmpty then some ([], cs) else none

/-- Scanner for `re.findall(r'suggest[^.]*:\s*([^.]+)', s, re.IGNORECASE)`,
with the same `\s*([^.]+)` capture behaviour as `flawScan` applied after the
last usable colon of the non-period run following `suggest`. -/
def suggScanF : Nat → List Char → List (List Char)
  | 0, _ => []
  | _, [] => []
  | fuel + 1, c :: cs =>
    if matchesCI ("suggest".toList) (c :: cs) then
      let after := (c :: cs).drop 7
      let S := after.takeWhile (fun ch => ch ≠ '.')
      match splitLastUsableColon S with
      | none => suggScanF fuel cs
      | some (_, a) =>
        let W := a.takeWhile pyIsSpace
        let k := if W.length = a.length then a.length - 1 else W.length
        a.drop k :: suggScanF fuel (after.drop S.length)
    else suggScanF fuel cs

/-- The suggestion scanner at its canonical fuel (the text length). -/
def suggScan (l : List Char) : List (List Char) := suggScanF l.length l

/-- Result of `parse_critique_response` (`src/utils/helpers.py`). -/
structure ParsedCritique where
  is_approved : Bool
  flaws : List String
  suggestions : List String
  raw_critique : String
deriving DecidableEq

/-- `parse_critique_response` from `src/utils/helpers.py`:
approval is `"approved" in low or "approve" in low` on the lowered, stripped
text; the flaw/suggestion lists come from the two guarded `re.findall` calls
on the *original* text; the raw text is retained unchanged. -/
def parse_critique_response (critique : String) : ParsedCritique :=
  let critique_lower := pyStrip (pyLower critique.toList)
  let is_approved :=
    hasSubstr ("approved".toList) critique_lower ||
    hasSubstr ("approve".toList) critique_lower
  let flaws :=
    if hasSubstr ("flaw:".toList) critique_lower then
      (flawScan critique.toList).map (fun l => String.mk l)
    else []
  let suggestions :=
    if hasSubstr ("suggest".toList) critique_lower then
      (suggScan critique.toList).map (fun l => String.mk l)
    else []
  { is_approved := is_approved
    flaws := flaws
    suggestions := suggestions
    raw_critique := critique }

/-! Python float literals of the confidence table as exact rationals, written
in reduced `Rat.mk'` form so that they evaluate inside the kernel (the
`Rat` arithmetic operations of this toolchain do not kernel-reduce). -/

/-- The float `0.9` as an exact rational. -/
def q09 : ℚ := ⟨9, 10, by decide, by decide⟩
/-- The float `0.7` as an exact rational. -/
def q07 : ℚ := ⟨7, 10, by decide, by decide⟩
/-- The float `0.5` as an exact rational. -/
def q05 : ℚ := ⟨1, 2, by decide, by decide⟩
/-- The float `0.3` as an exact rational. -/
def q03 : ℚ := ⟨3, 10, by decide, by decide⟩
/-- The float `0.0` as an exact rational. -/
def q00 : ℚ := ⟨0, 1, by decide, by decide⟩

theorem q09_eq : q09 = 0.9 := by
  unfold q09; rw [Rat.mk'_eq_divInt, Rat.divInt_eq_div]; norm_num

theorem q07_eq : q07 = 0.7 := by
  unfold q07; rw [Rat.mk'_eq_divInt, Rat.divInt_eq_div]; norm_num

theorem q05_eq : q05 = 0.5 := by
  unfold q05; rw [Rat.mk'_eq_divInt, Rat.divInt_eq_div]; norm_num

theorem q03_eq : q03 = 0.3 := by
  unfold q03; rw [Rat.mk'_eq_divInt, Rat.divInt_eq_div]; norm_num

/-- `ResponseCritic._calculate_confidence_score` from `src/core/critic.py`. -/
def calculate_confidence_score (parsed_critique : ParsedCritique) : ℚ :=
  if parsed_critique.is_approved then q09
  else
    let num_flaws := parsed_critique.flaws.length
    if num_flaws = 0 then q07
    else if num_flaws ≤ 2 then q05
    else q03

example : (parse_critique_response "FLAW: bad").flaws = ["bad"] := by decide
example : (parse_critique_response "FLAW: a. FLAW: b.").flaws = ["a", "b"] := by decide
example : (parse_critique_response "APPROVED").is_approved = true := by decide
example : (parse_critique_response "FLAW: bad").is_approved = false := by decide
example : (parse_critique_response "I suggest: use X.").suggestions = ["use X"] := by decide
example : calculate_confidence_score (parse_critique_response "FLAW: bad") = q05 := by decide

/-! ### Data model of the workflow (`src/core/graph.py`) -/

/-- A retrieved LangChain `Document`: page content plus the optional
`metadata["source"]` entry (the only metadata key the core reads). -/
structure Doc where
  page_content : String
  source : Option String
deriving DecidableEq

/-- The dictionary returned by `ResponseGenerator.generate_initial_response` /
`generate_improved_response` (`src/core/generator.py`): content, number of
context documents, source labels, the raw LLM text, and (improved mode only)
the `improved_from_critique` flag. -/
structure GenData where
  content : String
  context_used : Nat
  sources : List String
  raw_response : String
  improved_from_critique : Option Bool
deriving DecidableEq

/-- The `critique_result` dictionary stored in the state.  The success path of
`_critique_response` stores all six keys; its failure path stores only
`is_approved` and `confidence_score`, so the other keys are `Option`s
(`none` models an absent key, whose lookup would raise `KeyError`). -/
structure CritiqueDict where
  is_approved : Bool
  confidence_score : ℚ
  flaws : Option (List String)
  suggestions : Option (List String)
  raw_critique : Option String
  needs_improvement : Option Bool
deriving DecidableEq

/-- A `thinking_process` entry.  Success entries carry `step`+`description`
(+stage-specific details, not read anywhere by the core and elided here);
failure entries carry `step`+`error`. -/
structure Step where
  step : String
  description : Option String
  error : Option String
deriving DecidableEq

/-- The `RAGState` TypedDict of `src/core/graph.py`. -/
structure RAGState where
  query : String
  retrieved_docs : List Doc
  context_sources : List String
  response : String
  response_metadata : Option GenData
  critique_result : Option CritiqueDict
  is_approved : Bool
  confidence_score : ℚ
  iteration_count : Int
  max_iterations : Int
  final_response : String
  thinking_process : List Step
deriving DecidableEq

/-- The external collaborators of one run, as oracles.  `Except.error e`
models the Python call raising an exception with message `e`:

* `retrieve` — `DocumentRetriever.retrieve_documents` (vector store I/O);
* `generate_initial`/`generate_improved` — the two `ResponseGenerator`
  calls (arguments exactly as in `src/core/graph.py`);
* `critiqueLLM` — the `self.llm.invoke` inside
  `ResponseCritic.critique_response`, returning the free-text critique
  (its inputs are the data the prompts are built from);
* `improveLLM` — the `self.llm.invoke` inside
  `ResponseCritic.generate_improved_query`, returning the rewritten query
  (inputs: original query, flaws, suggestions, raw critique);
* `maxReflectionCycles` — `config.MAX_REFLECTION_CYCLES` (default 2). -/
structure Env where
  retrieve : String → Except String (List Doc)
  generate_initial : String → List Doc → Except String GenData
  generate_improved : String → String → String → List Doc → Except String GenData
  critiqueLLM : String → String → List String → Except String String
  improveLLM : String → List String → List String → String → Except String String
  maxReflectionCycles : Int

/-! ### The critic (`src/core/critic.py`) -/

/-- `ResponseCritic.critique_response`: invoke the LLM on the critique
prompts, parse the text, compute the confidence score, and build the result
dictionary; an LLM failure is re-raised (`except ...: raise`). -/
def critique_response (env : Env) (query response : String)
    (context_sources : List String) : Except String CritiqueDict :=
  match env.critiqueLLM query response context_sources with
  | .error e => .error e
  | .ok critique_text =>
    let parsed := parse_critique_response critique_text
    .ok { is_approved := parsed.is_approved
          confidence_score := calculate_confidence_score parsed
          flaws := some parsed.flaws
          suggestions := some parsed.suggestions
          raw_critique := some critique_text
          needs_improvement := some (!parsed.is_approved) }

/-- `ResponseCritic.generate_improved_query`.  The whole body is wrapped in
`try/except Exception: return original_query`, so the function is total:
an approved critique, a missing dictionary key (`KeyError` while building the
prompt, modelled by the `Option` fields / the absent dictionary), or an LLM
failure all fall back to the original query.  On success the LLM text is
returned stripped (`response.content.strip()`). -/
def generate_improved_query (env : Env) (original_query : String)
    (critique_feedback : Option CritiqueDict) : String :=
  match critique_feedback with
  | none => original_query
  | some cr =>
    if cr.is_approved then original_query
    else
      match cr.flaws, cr.suggestions, cr.raw_critique with
      | some fl, some sg, some raw =>
        match env.improveLLM original_query fl sg raw with
        | .ok t => String.mk (pyStrip t.toList)
        | .error _ => original_query
      | _, _, _ => original_query

/-! ### The workflow nodes (`src/core/graph.py`) -/

/-- `_retrieve_documents`: note that both branches *replace* the
`thinking_process` list with a fresh one-element list (this node runs first,
when the list is empty). -/
def retrieve_documents (env : Env) (state : RAGState) : RAGState :=
  match env.retrieve state.query with
  | .ok docs =>
    let sources := docs.map (fun d => d.source.getD "Unknown")
    { state with
      retrieved_docs := docs
      context_sources := sources
      thinking_process :=
        [⟨"retrieve", some ("Retrieved " ++ toString docs.length ++ " documents"), none⟩] }
  | .error e =>
    { state with
      retrieved_docs := []
      context_sources := []
      thinking_process := [⟨"retrieve", none, some e⟩] }

/-- `_generate_response`. -/
def generate_response (env : Env) (state : RAGState) : RAGState :=
  match env.generate_initial state.query state.retrieved_docs with
  | .ok response_data =>
    { state with
      response := response_data.content
      response_metadata := some response_data
      thinking_process :=
        state.thinking_process ++ [⟨"generate", some "Generated initial response", none⟩] }
  | .error e =>
    { state with
      response := "Error generating response"
      response_metadata := none
      thinking_process := state.thinking_process ++ [⟨"generate", none, some e⟩] }

/-- `_critique_response`: success stores the critique and sets
`iteration_count = 1` and `max_iterations = config.MAX_REFLECTION_CYCLES`;
failure stores the two-key fail-open dictionary
`{"is_approved": True, "confidence_score": 0.5}` and touches neither counter. -/
def critique_response_node (env : Env) (state : RAGState) : RAGState :=
  match critique_response env state.query state.response state.context_sources with
  | .ok critique_result =>
    { state with
      critique_result := some critique_result
      is_approved := critique_result.is_approved
      confidence_score := critique_result.confidence_score
      iteration_count := 1
      max_iterations := env.maxReflectionCycles
      thinking_process :=
        state.thinking_process ++ [⟨"critique", some "🧠 Self-critique analysis", none⟩] }
  | .error e =>
    { state with
      critique_result := some ⟨true, q05, none, none, none, none⟩
      is_approved := true
      confidence_score := q05
      thinking_process := state.thinking_process ++ [⟨"critique", none, some e⟩] }

/-- `_should_improve`: the conditional-edge selector. -/
def should_improve (state : RAGState) : String :=
  if state.is_approved then "finalize"
  else if state.iteration_count ≥ state.max_iterations then "finalize"
  else "improve"

/-- `_improve_query`.  `generate_improved_query` is total (it swallows its own
exceptions), so the node's `except` branch (graph.py lines 250-258) is
unreachable and the node always takes the success path: replace `query` with
the (possibly unchanged) result and append a normal step. -/
def improve_query (env : Env) (state : RAGState) : RAGState :=
  let improved_query := generate_improved_query env state.query state.critique_result
  { state with
    query := improved_query
    thinking_process :=
      state.thinking_process ++
        [⟨"improve_query", some "⚠️ Generating improved search query", none⟩] }

/-- `_retrieve_improved`: success replaces the doc/source lists; failure
appends an error step and leaves the rest of the state — including
`retrieved_docs` and `context_sources` — unchanged. -/
def retrieve_improved (env : Env) (state : RAGState) : RAGState :=
  match env.retrieve state.query with
  | .ok docs =>
    let sources := docs.map (fun d => d.source.getD "Unknown")
    { state with
      retrieved_docs := docs
      context_sources := sources
      thinking_process :=
        state.thinking_process ++
          [⟨"retrieve_improved", some "🔄 Re-retrieving with improved query", none⟩] }
  | .error e =>
    { state with
      thinking_process := state.thinking_process ++ [⟨"retrieve_improved", none, some e⟩] }

/-- `_generate_improved`: reads `state["critique_result"]["raw_critique"]`
inside the `try`, so an absent dictionary entry (either level, modelled by the
`Option.bind`) raises `KeyError` and lands in the error branch; the error
branch only appends an error step. -/
def generate_improved_node (env : Env) (state : RAGState) : RAGState :=
  match state.critique_result.bind CritiqueDict.raw_critique with
  | some raw =>
    match env.generate_improved state.query state.response raw state.retrieved_docs with
    | .ok response_data =>
      { state with
        response := response_data.content
        response_metadata := some response_data
        thinking_process :=
          state.thinking_process ++
            [⟨"generate_improved", some "✨ Generating improved response", none⟩] }
    | .error e =>
      { state with
        thinking_process := state.thinking_process ++ [⟨"generate_improved", none, some e⟩] }
  | none =>
    { state with
      thinking_process :=
        state.thinking_process ++ [⟨"generate_improved", none, some "KeyError"⟩] }

/-- `_finalize_response`. -/
def finalize_response (state : RAGState) : RAGState :=
  { state with
    final_response := state.response
    thinking_process :=
      state.thinking_process ++ [⟨"finalize", some "✅ Finalizing response", none⟩] }

/-! ### The workflow graph (`_build_workflow`) and its execution -/

/-- The nodes of the `StateGraph`, plus LangGraph's `START`/`END` markers. -/
inductive Node where
  | START
  | retrieve
  | generate
  | critique
  | improve_query
  | retrieve_improved
  | generate_improved
  | finalize
  | END
deriving DecidableEq, Fintype

/-- The unconditional edges added by `_build_workflow` (the `critique` node
has only the conditional edge). -/
def staticSucc : Node → Option Node
  | .START => some .retrieve
  | .retrieve => some .generate
  | .generate => some .critique
  | .critique => none
  | .improve_query => some .retrieve_improved
  | .retrieve_improved => some .generate_improved
  | .generate_improved => some .finalize
  | .finalize => some .END
  | .END => none

/-- The conditional-edge mapping `{"improve": "improve_query",
"finalize": "finalize"}` attached to `critique`. -/
def condMap (tag : String) : Option Node :=
  if tag = "improve" then some .improve_query
  else if tag = "finalize" then some .finalize
  else none

/-- The state transformer each node runs (`add_node` registrations). -/
def nodeFn (env : Env) : Node → RAGState → RAGState
  | .START => id
  | .retrieve => retrieve_documents env
  | .generate => generate_response env
  | .critique => critique_response_node env
  | .improve_query => improve_query env
  | .retrieve_improved => retrieve_improved env
  | .generate_improved => generate_improved_node env
  | .finalize => finalize_response
  | .END => id

/-- The successor of a node, evaluated (as LangGraph does) on the state the
node just produced. -/
def succNode (_env : Env) (n : Node) (s : RAGState) : Option Node :=
  match n with
  | .critique => condMap (should_improve s)
  | _ => staticSucc n

/-- Fuel-bounded execution of the compiled graph from a node: run the node,
follow the (conditional) edge, stop at `END`.  Returns the final state and
the list of executed nodes in execution order. -/
def exec (env : Env) : Nat → Node → RAGState → RAGState × List Node
  | 0, _, s => (s, [])
  | fuel + 1, n, s =>
    if n = .END then (s, [])
    else
      let s' := nodeFn env n s
      match succNode env n s' with
      | none => (s', [n])
      | some m =>
        let r := exec env fuel m s'
        (r.1, n :: r.2)

/-- The initial state built by `ReflectiveRAGWorkflow.run`. -/
def initialState (env : Env) (query : String) : RAGState :=
  { query := query
    retrieved_docs := []
    context_sources := []
    response := ""
    response_metadata := none
    critique_result := none
    is_approved := false
    confidence_score := q00
    iteration_count := 0
    max_iterations := env.maxReflectionCycles
    final_response := ""
    thinking_process := [] }

/-- `ReflectiveRAGWorkflow.run`: invoke the compiled graph from the entry
point `retrieve` on the initial state.  Fuel 8 covers the longest path
(`retrieve, generate, critique, improve_query, retrieve_improved,
generate_improved, finalize, END`). -/
def runState (env : Env) (query : String) : RAGState :=
  (exec env 8 .retrieve (initialState env query)).1

/-- The nodes a run executes, in execution order. -/
def visited (env : Env) (query : String) : List Node :=
  (exec env 8 .retrieve (initialState env query)).2

/-! Intermediate states of the pipeline, named for use in the theorems. -/

/-- State after the initial `retrieve` node. -/
def afterRetrieve (env : Env) (q : String) : RAGState :=
  retrieve_documents env (initialState env q)

/-- State after the initial `generate` node. -/
def afterGenerate (env : Env) (q : String) : RAGState :=
  generate_response env (afterRetrieve env q)

/-- State after the `critique` node. -/
def afterCritique (env : Env) (q : String) : RAGState :=
  critique_response_node env (afterGenerate env q)

/-- State after the `improve_query` node (improvement path). -/
def afterImprove (env : Env) (q : String) : RAGState :=
  improve_query env (afterCritique env q)

/-- State after the `retrieve_improved` node (improvement path). -/
def afterRetrieve2 (env : Env) (q : String) : RAGState :=
  retrieve_improved env (afterImprove env q)

/-- State after the `generate_improved` node (improvement path). -/
def afterGenerate2 (env : Env) (q : String) : RAGState :=
  generate_improved_node env (afterRetrieve2 env q)

/-! ### Execution in closed form -/

theorem should_improve_cases (s : RAGState) :
    should_improve s = "improve" ∨ should_improve s = "finalize" := by
  unfold should_improve
  split_ifs <;> simp

theorem should_improve_of_approved (s : RAGState) (h : s.is_approved = true) :
    should_improve s = "finalize" := by
  unfold should_improve
  simp [h]

theorem should_improve_eq_improve (s : RAGState) (h1 : s.is_approved = false)
    (h2 : s.iteration_count < s.max_iterations) :
    should_improve s = "improve" := by
  unfold should_improve
  rw [h1]
  rw [if_neg (by simp), if_neg (by omega)]

theorem should_improve_eq_finalize_exhausted (s : RAGState)
    (h1 : s.is_approved = false) (h2 : s.iteration_count ≥ s.max_iterations) :
    should_improve s = "finalize" := by
  unfold should_improve
  rw [h1]
  rw [if_neg (by simp), if_pos h2]

/-- The whole run, in closed form: the three initial stages always execute;
then either the improvement path (`improve_query`, `retrieve_improved`,
`generate_improved`) or nothing, per `_should_improve`; then `finalize`. -/
theorem run_bridge (env : Env) (q : String) :
    exec env 8 .retrieve (initialState env q) =
      if should_improve (afterCritique env q) = "improve" then
        (finalize_response (afterGenerate2 env q),
         [.retrieve, .generate, .critique, .improve_query,
          .retrieve_improved, .generate_improved, .finalize])
      else
        (finalize_response (afterCritique env q),
         [.retrieve, .generate, .critique, .finalize]) := by
  have e8 : exec env 8 .retrieve (initialState env q) =
      ((exec env 6 .critique (afterGenerate env q)).1,
       .retrieve :: .generate :: (exec env 6 .critique (afterGenerate env q)).2) := rfl
  have e6 : exec env 6 Node.critique (afterGenerate env q) =
      (match condMap (should_improve (afterCritique env q)) with
       | none => (afterCritique env q, [Node.critique])
       | some m => ((exec env 5 m (afterCritique env q)).1,
                    Node.critique :: (exec env 5 m (afterCritique env q)).2)) := rfl
  rcases should_improve_cases (afterCritique env q) with h | h
  · have hc : condMap (should_improve (afterCritique env q)) = some Node.improve_query := by
      rw [h]; rfl
    rw [if_pos h, e8, e6, hc]
    rfl
  · have hc : condMap (should_improve (afterCritique env q)) = some Node.finalize := by
      rw [h]; rfl
    have hne : should_improve (afterCritique env q) ≠ "improve" := by
      rw [h]; decide
    rw [if_neg hne, e8, e6, hc]
    rfl

theorem runState_eq (env : Env) (q : String) :
    runState env q =
      if should_improve (afterCritique env q) = "improve" then
        finalize_response (afterGenerate2 env q)
      else
        finalize_response (afterCritique env q) := by
  unfold runState
  rw [run_bridge]
  split_ifs <;> rfl

theorem visited_eq (env : Env) (q : String) :
    visited env q =
      if should_improve (afterCritique env q) = "improve" then
        [.retrieve, .generate, .critique, .improve_query,
         .retrieve_improved, .generate_improved, .finalize]
      else
        [.retrieve, .generate, .critique, .finalize] := by
  unfold visited
  rw [run_bridge]
  split_ifs <;> rfl

/-! ### One step per stage execution (trace lemmas) -/

theorem trace_retrieve (env : Env) (s : RAGState) :
    ∃ st : Step, st.step = "retrieve" ∧
      (retrieve_documents env s).thinking_process = [st] := by
  unfold retrieve_documents
  cases env.retrieve s.query <;> exact ⟨_, rfl, rfl⟩

theorem trace_generate (env : Env) (s : RAGState) :
    ∃ st : Step, st.step = "generate" ∧
      (generate_response env s).thinking_process = s.thinking_process ++ [st] := by
  unfold generate_response
  cases env.generate_initial s.query s.retrieved_docs <;> exact ⟨_, rfl, rfl⟩

theorem trace_critique (env : Env) (s : RAGState) :
    ∃ st : Step, st.step = "critique" ∧
      (critique_response_node env s).thinking_process = s.thinking_process ++ [st] := by
  unfold critique_response_node
  cases critique_response env s.query s.response s.context_sources <;> exact ⟨_, rfl, rfl⟩

theorem trace_improve_query (env : Env) (s : RAGState) :
    ∃ st : Step, st.step = "improve_query" ∧
      (improve_query env s).thinking_process = s.thinking_process ++ [st] :=
  ⟨_, rfl, rfl⟩

theorem trace_retrieve_improved (env : Env) (s : RAGState) :
    ∃ st : Step, st.step = "retrieve_improved" ∧
      (retrieve_improved env s).thinking_process = s.thinking_process ++ [st] := by
  unfold retrieve_improved
  cases env.retrieve s.query <;> exact ⟨_, rfl, rfl⟩

theorem trace_generate_improved (env : Env) (s : RAGState) :
    ∃ st : Step, st.step = "generate_improved" ∧
      (generate_improved_node env s).thinking_process = s.thinking_process ++ [st] := by
  unfold generate_improved_node
  split
  · split <;> exact ⟨_, rfl, rfl⟩
  · exact ⟨_, rfl, rfl⟩

theorem trace_finalize (s : RAGState) :
    ∃ st : Step, st.step = "finalize" ∧
      (finalize_response s).thinking_process = s.thinking_process ++ [st] :=
  ⟨_, rfl, rfl⟩

/-! ### Node equations -/

/-- The critique dictionary `critique_response` builds from the LLM text. -/
def critiqueDictOf (txt : String) : CritiqueDict :=
  { is_approved := (parse_critique_response txt).is_approved
    confidence_score := calculate_confidence_score (parse_critique_response txt)
    flaws := some (parse_critique_response txt).flaws
    suggestions := some (parse_critique_response txt).suggestions
    raw_critique := some txt
    needs_improvement := some (!(parse_critique_response txt).is_approved) }

theorem critique_node_ok (env : Env) (s : RAGState) (txt : String)
    (h : env.critiqueLLM s.query s.response s.context_sources = .ok txt) :
    critique_response_node env s =
      { s with
        critique_result := some (critiqueDictOf txt)
        is_approved := (parse_critique_response txt).is_approved
        confidence_score := calculate_confidence_score (parse_critique_response txt)
        iteration_count := 1
        max_iterations := env.maxReflectionCycles
        thinking_process :=
          s.thinking_process ++ [⟨"critique", some "🧠 Self-critique analysis", none⟩] } := by
  unfold critique_response_node critique_response critiqueDictOf
  rw [h]

theorem critique_node_error (env : Env) (s : RAGState) (e : String)
    (h : env.critiqueLLM s.query s.response s.context_sources = .error e) :
    critique_response_node env s =
      { s with
        critique_result := some ⟨true, q05, none, none, none, none⟩
        is_approved := true
        confidence_score := q05
        thinking_process := s.thinking_process ++ [⟨"critique", none, some e⟩] } := by
  unfold critique_response_node critique_response
  rw [h]

theorem retrieve_documents_ok (env : Env) (s : RAGState) (docs : List Doc)
    (h : env.retrieve s.query = .ok docs) :
    retrieve_documents env s =
      { s with
        retrieved_docs := docs
        context_sources := docs.map (fun d => d.source.getD "Unknown")
        thinking_process :=
          [⟨"retrieve", some ("Retrieved " ++ toString docs.length ++ " documents"), none⟩] } := by
  unfold retrieve_documents
  rw [h]

theorem retrieve_documents_error (env : Env) (s : RAGState) (e : String)
    (h : env.retrieve s.query = .error e) :
    retrieve_documents env s =
      { s with
        retrieved_docs := []
        context_sources := []
        thinking_process := [⟨"retrieve", none, some e⟩] } := by
  unfold retrieve_documents
  rw [h]

theorem generate_response_ok (env : Env) (s : RAGState) (d : GenData)
    (h : env.generate_initial s.query s.retrieved_docs = .ok d) :
    generate_response env s =
      { s with
        response := d.content
        response_metadata := some d
        thinking_process :=
          s.thinking_process ++ [⟨"generate", some "Generated initial response", none⟩] } := by
  unfold generate_response
  rw [h]

theorem generate_response_error (env : Env) (s : RAGState) (e : String)
    (h : env.generate_initial s.query s.retrieved_docs = .error e) :
    generate_response env s =
      { s with
        response := "Error generating response"
        response_metadata := none
        thinking_process := s.thinking_process ++ [⟨"generate", none, some e⟩] } := by
  unfold generate_response
  rw [h]

theorem retrieve_improved_ok (env : Env) (s : RAGState) (docs : List Doc)
    (h : env.retrieve s.query = .ok docs) :
    retrieve_improved env s =
      { s with
        retrieved_docs := docs
        context_sources := docs.map (fun d => d.source.getD "Unknown")
        thinking_process :=
          s.thinking_process ++
            [⟨"retrieve_improved", some "🔄 Re-retrieving with improved query", none⟩] } := by
  unfold retrieve_improved
  rw [h]

theorem retrieve_improved_error (env : Env) (s : RAGState) (e : String)
    (h : env.retrieve s.query = .error e) :
    retrieve_improved env s =
      { s with
        thinking_process :=
          s.thinking_process ++ [⟨"retrieve_improved", none, some e⟩] } := by
  unfold retrieve_improved
  rw [h]

theorem improve_query_eq (env : Env) (s : RAGState) :
    improve_query env s =
      { s with
        query := generate_improved_query env s.query s.critique_result
        thinking_process :=
          s.thinking_process ++
            [⟨"improve_query", some "⚠️ Generating improved search query", none⟩] } := rfl

theorem generate_improved_node_ok (env : Env) (s : RAGState) (raw : String) (d : GenData)
    (h1 : s.critique_result.bind CritiqueDict.raw_critique = some raw)
    (h2 : env.generate_improved s.query s.response raw s.retrieved_docs = .ok d) :
    generate_improved_node env s =
      { s with
        response := d.content
        response_metadata := some d
        thinking_process :=
          s.thinking_process ++
            [⟨"generate_improved", some "✨ Generating improved response", none⟩] } := by
  unfold generate_improved_node
  split
  · rename_i raw' heq
    rw [h1] at heq
    cases heq
    split
    · rename_i d' hg
      rw [hg] at h2
      cases h2
      rfl
    · rename_i e hg
      rw [hg] at h2
      cases h2
  · rename_i heq
    rw [h1] at heq
    cases heq

theorem generate_improved_node_error (env : Env) (s : RAGState) (raw e : String)
    (h1 : s.critique_result.bind CritiqueDict.raw_critique = some raw)
    (h2 : env.generate_improved s.query s.response raw s.retrieved_docs = .error e) :
    generate_improved_node env s =
      { s with
        thinking_process :=
          s.thinking_process ++ [⟨"generate_improved", none, some e⟩] } := by
  unfold generate_improved_node
  split
  · rename_i raw' heq
    rw [h1] at heq
    cases heq
    split
    · rename_i d' hg
      rw [hg] at h2
      cases h2
    · rename_i e' hg
      rw [hg] at h2
      cases h2
      rfl
  · rename_i heq
    rw [h1] at heq
    cases heq

/-- `generate_improved_query` when the LLM call succeeds on a full rejected
critique dictionary: the stripped LLM text replaces the query. -/
theorem giq_llm_ok (env : Env) (q : String) (conf : ℚ)
    (fl sg : List String) (raw : String) (ni : Option Bool) (t : String)
    (h : env.improveLLM q fl sg raw = .ok t) :
    generate_improved_query env q (some ⟨false, conf, some fl, some sg, some raw, ni⟩) =
      String.mk (pyStrip t.toList) := by
  show (match env.improveLLM q fl sg raw with
        | .ok t => String.mk (pyStrip t.toList)
        | .error _ => q) = String.mk (pyStrip t.toList)
  rw [h]

/-- `generate_improved_query` when the LLM call fails: the original query is
returned (the critic swallows the exception). -/
theorem giq_llm_error (env : Env) (q : String) (conf : ℚ)
    (fl sg : List String) (raw : String) (ni : Option Bool) (e : String)
    (h : env.improveLLM q fl sg raw = .error e) :
    generate_improved_query env q (some ⟨false, conf, some fl, some sg, some raw, ni⟩) = q := by
  show (match env.improveLLM q fl sg raw with
        | .ok t => String.mk (pyStrip t.toList)
        | .error _ => q) = q
  rw [h]

/-! ### Field preservation across nodes -/

theorem retrieve_documents_query (env : Env) (s : RAGState) :
    (retrieve_documents env s).query = s.query := by
  unfold retrieve_documents
  cases env.retrieve s.query <;> rfl

theorem generate_response_query (env : Env) (s : RAGState) :
    (generate_response env s).query = s.query := by
  unfold generate_response
  cases env.generate_initial s.query s.retrieved_docs <;> rfl

theorem critique_node_query (env : Env) (s : RAGState) :
    (critique_response_node env s).query = s.query := by
  unfold critique_response_node
  cases critique_response env s.query s.response s.context_sources <;> rfl

theorem critique_node_response (env : Env) (s : RAGState) :
    (critique_response_node env s).response = s.response := by
  unfold critique_response_node
  cases critique_response env s.query s.response s.context_sources <;> rfl

theorem improve_query_preserves (env : Env) (s : RAGState) :
    (improve_query env s).response = s.response ∧
    (improve_query env s).confidence_score = s.confidence_score ∧
    (improve_query env s).is_approved = s.is_approved ∧
    (improve_query env s).iteration_count = s.iteration_count ∧
    (improve_query env s).critique_result = s.critique_result ∧
    (improve_query env s).retrieved_docs = s.retrieved_docs :=
  ⟨rfl, rfl, rfl, rfl, rfl, rfl⟩

theorem retrieve_improved_preserves (env : Env) (s : RAGState) :
    (retrieve_improved env s).query = s.query ∧
    (retrieve_improved env s).response = s.response ∧
    (retrieve_improved env s).confidence_score = s.confidence_score ∧
    (retrieve_improved env s).is_approved = s.is_approved ∧
    (retrieve_improved env s).iteration_count = s.iteration_count ∧
    (retrieve_improved env s).critique_result = s.critique_result := by
  unfold retrieve_improved
  cases env.retrieve s.query <;> exact ⟨rfl, rfl, rfl, rfl, rfl, rfl⟩

theorem generate_improved_node_preserves (env : Env) (s : RAGState) :
    (generate_improved_node env s).query = s.query ∧
    (generate_improved_node env s).confidence_score = s.confidence_score ∧
    (generate_improved_node env s).is_approved = s.is_approved ∧
    (generate_improved_node env s).iteration_count = s.iteration_count := by
  unfold generate_improved_node
  split
  · split <;> exact ⟨rfl, rfl, rfl, rfl⟩
  · exact ⟨rfl, rfl, rfl, rfl⟩

theorem finalize_preserves (s : RAGState) :
    (finalize_response s).confidence_score = s.confidence_score ∧
    (finalize_response s).is_approved = s.is_approved ∧
    (finalize_response s).iteration_count = s.iteration_count ∧
    (finalize_response s).final_response = s.response :=
  ⟨rfl, rfl, rfl, rfl⟩

theorem critique_node_iteration (env : Env) (s : RAGState) :
    (critique_response_node env s).iteration_count = 1 ∨
    (critique_response_node env s).iteration_count = s.iteration_count := by
  unfold critique_response_node
  cases critique_response env s.query s.response s.context_sources
  · right; rfl
  · left; rfl

/-- When the critique is not approved, the confidence table yields one of the
three rejection values. -/
theorem confidence_rejected_range (p : ParsedCritique) (h : p.is_approved = false) :
    calculate_confidence_score p = q07 ∨ calculate_confidence_score p = q05 ∨
      calculate_confidence_score p = q03 := by
  unfold calculate_confidence_score
  rw [h]
  simp only [Bool.false_eq_true, if_false]
  split_ifs <;> simp

/-! ### Shared concrete inputs for witnesses and counterexamples -/

/-- A sample retrieved document. -/
def docA : Doc := ⟨"useState is a Hook", some "react.dev"⟩

/-- A sample initial-generation result. -/
def genA : GenData := ⟨"answer one", 1, ["react.dev"], "answer one raw", none⟩

/-- A sample improved-generation result. -/
def genB : GenData := ⟨"answer two", 1, ["react.dev"], "answer two raw", some true⟩

/-! ### C1 -/

/-- C1: for every parsed critique, the confidence score is an exact lookup on
(approved, number of flaws): approved → 0.9; otherwise 0.7 for 0 flaws, 0.5
for 1-2 flaws, 0.3 for more than 2 flaws; and the score equals 0.9 exactly
when the critique is approved. -/
theorem C1_confidence_exact_lookup (p : ParsedCritique) :
    (p.is_approved = true → calculate_confidence_score p = 0.9) ∧
    (p.is_approved = false → p.flaws.length = 0 → calculate_confidence_score p = 0.7) ∧
    (p.is_approved = false → (p.flaws.length = 1 ∨ p.flaws.length = 2) →
      calculate_confidence_score p = 0.5) ∧
    (p.is_approved = false → 2 < p.flaws.length → calculate_confidence_score p = 0.3) ∧
    (calculate_confidence_score p = 0.9 ↔ p.is_approved = true) := by
  refine ⟨?_, ?_, ?_, ?_, ?_, ?_⟩
  · intro h
    unfold calculate_confidence_score
    rw [h, if_pos rfl, q09_eq]
  · intro h h0
    unfold calculate_confidence_score
    rw [h]
    simp only [Bool.false_eq_true, if_false, h0, if_pos rfl]
    exact q07_eq
  · intro h h12
    unfold calculate_confidence_score
    rw [h]
    simp only [Bool.false_eq_true, if_false]
    rw [if_neg (by omega), if_pos (by omega), q05_eq]
  · intro h hgt
    unfold calculate_confidence_score
    rw [h]
    simp only [Bool.false_eq_true, if_false]
    rw [if_neg (by omega), if_neg (by omega), q03_eq]
  · intro hEq
    by_contra hne
    have h : p.is_approved = false := by
      cases hb : p.is_approved
      · rfl
      · exact absurd hb hne
    rcases confidence_rejected_range p h with h7 | h5 | h3
    · rw [h7, q07_eq] at hEq; norm_num at hEq
    · rw [h5, q05_eq] at hEq; norm_num at hEq
    · rw [h3, q03_eq] at hEq; norm_num at hEq
  · intro h
    unfold calculate_confidence_score
    rw [h, if_pos rfl, q09_eq]

/-- C1 witness: the table evaluated at concrete critiques. -/
theorem C1_confidence_exact_lookup_witness :
    calculate_confidence_score ⟨true, [], [], "APPROVED"⟩ = 0.9 ∧
    calculate_confidence_score ⟨false, [], [], "weak"⟩ = 0.7 ∧
    calculate_confidence_score ⟨false, ["a"], [], "r"⟩ = 0.5 ∧
    calculate_confidence_score ⟨false, ["a", "b", "c"], [], "r"⟩ = 0.3 :=
  ⟨(C1_confidence_exact_lookup ⟨true, [], [], "APPROVED"⟩).1 rfl,
   (C1_confidence_exact_lookup ⟨false, [], [], "weak"⟩).2.1 rfl rfl,
   (C1_confidence_exact_lookup ⟨false, ["a"], [], "r"⟩).2.2.1 rfl (Or.inl rfl),
   (C1_confidence_exact_lookup ⟨false, ["a", "b", "c"], [], "r"⟩).2.2.2.1 rfl (by decide)⟩

/-! ### C2 -/

/-- C2: if the critic's critique call raises, the state after the critique
stage has `approved = true` and `confidence = 0.5`, an error step is appended
to the trace, and the run goes straight to `finalize` — no rewrite stage ever
executes on this pass. -/
theorem C2_fail_open_critique (env : Env) (q e : String)
    (h : env.critiqueLLM (afterGenerate env q).query (afterGenerate env q).response
          (afterGenerate env q).context_sources = .error e) :
    (afterCritique env q).is_approved = true ∧
    (afterCritique env q).confidence_score = 0.5 ∧
    (afterCritique env q).thinking_process =
      (afterGenerate env q).thinking_process ++ [⟨"critique", none, some e⟩] ∧
    runState env q = finalize_response (afterCritique env q) ∧
    visited env q = [.retrieve, .generate, .critique, .finalize] := by
  have hc : afterCritique env q =
      { afterGenerate env q with
        critique_result := some ⟨true, q05, none, none, none, none⟩
        is_approved := true
        confidence_score := q05
        thinking_process :=
          (afterGenerate env q).thinking_process ++ [⟨"critique", none, some e⟩] } :=
    critique_node_error env (afterGenerate env q) e h
  have happ : (afterCritique env q).is_approved = true := by rw [hc]
  have hfin : should_improve (afterCritique env q) = "finalize" :=
    should_improve_of_approved _ happ
  have hnotimp : ¬ should_improve (afterCritique env q) = "improve" := by
    rw [hfin]; decide
  refine ⟨happ, ?_, ?_, ?_, ?_⟩
  · rw [hc, ← q05_eq]
  · rw [hc]
  · rw [runState_eq, if_neg hnotimp]
  · rw [visited_eq, if_neg hnotimp]

/-- A critic whose LLM call always raises; everything else succeeds. -/
def envC2 : Env :=
  { retrieve := fun _ => .ok [docA]
    generate_initial := fun _ _ => .ok genA
    generate_improved := fun _ _ _ _ => .ok genB
    critiqueLLM := fun _ _ _ => .error "LLM timeout"
    improveLLM := fun _ _ _ _ => .ok "q2"
    maxReflectionCycles := 2 }

/-- C2 witness: a concrete run whose critique call raises. -/
theorem C2_fail_open_critique_witness :
    (afterCritique envC2 "what is useState").is_approved = true ∧
    (afterCritique envC2 "what is useState").confidence_score = 0.5 ∧
    (afterCritique envC2 "what is useState").thinking_process =
      (afterGenerate envC2 "what is useState").thinking_process ++
        [⟨"critique", none, some "LLM timeout"⟩] ∧
    runState envC2 "what is useState" =
      finalize_response (afterCritique envC2 "what is useState") ∧
    visited envC2 "what is useState" = [.retrieve, .generate, .critique, .finalize] :=
  C2_fail_open_critique envC2 "what is useState" "LLM timeout" rfl

/-! ### C6 -/

/-- A run whose query-rewrite LLM call always raises; the critic rejects with
one flaw, so the improvement path is taken. -/
def envC6 : Env :=
  { retrieve := fun _ => .ok [docA]
    generate_initial := fun _ _ => .ok genA
    generate_improved := fun _ _ _ _ => .ok genB
    critiqueLLM := fun _ _ _ => .ok "FLAW: outdated info"
    improveLLM := fun _ _ _ _ => .error "rewrite LLM down"
    maxReflectionCycles := 2 }

/-- C6 counterexample: in a run whose query-rewrite operation fails, the query
is retained byte-for-byte and the run proceeds to improved retrieval, but *no*
error Step is appended anywhere in the trace — the rewrite stage records a
normal step (`error = none`), refuting the claim's "an error Step is
appended". -/
theorem C6_counterexample :
    envC6.improveLLM "q" ["outdated info"] [] "FLAW: outdated info" =
      .error "rewrite LLM down" ∧
    (afterImprove envC6 "q").query = "q" ∧
    (afterImprove envC6 "q").thinking_process.map Step.error = [none, none, none, none] ∧
    visited envC6 "q" =
      [.retrieve, .generate, .critique, .improve_query,
       .retrieve_improved, .generate_improved, .finalize] := by
  refine ⟨rfl, by decide, by decide, ?_⟩
  rw [visited_eq, if_pos (by decide)]

/-- C6 (amended): if the query-rewrite LLM call fails on a rejected critique,
the query after the rewrite stage equals the query before it byte-for-byte and
the run proceeds to improved retrieval; however the step recorded for the
stage is a normal one (`error = none`) — the critic swallows the failure and
returns the original query, so the graph-level error handler never runs. -/
theorem C6_query_retention_on_rewrite_failure (env : Env) (s : RAGState) (conf : ℚ)
    (fl sg : List String) (raw : String) (ni : Option Bool) (e : String)
    (hcr : s.critique_result = some ⟨false, conf, some fl, some sg, some raw, ni⟩)
    (h : env.improveLLM s.query fl sg raw = .error e) :
    (improve_query env s).query = s.query ∧
    (improve_query env s).thinking_process =
      s.thinking_process ++
        [⟨"improve_query", some "⚠️ Generating improved search query", none⟩] ∧
    staticSucc .improve_query = some .retrieve_improved := by
  refine ⟨?_, rfl, rfl⟩
  have hq : (improve_query env s).query =
      generate_improved_query env s.query s.critique_result := rfl
  rw [hq, hcr]
  exact giq_llm_error env s.query conf fl sg raw ni e h

/-- C6 witness: the amended statement at a concrete failing rewrite. -/
theorem C6_query_retention_on_rewrite_failure_witness :
    (improve_query envC6 (afterCritique envC6 "q")).query =
      (afterCritique envC6 "q").query ∧
    (improve_query envC6 (afterCritique envC6 "q")).thinking_process =
      (afterCritique envC6 "q").thinking_process ++
        [⟨"improve_query", some "⚠️ Generating improved search query", none⟩] ∧
    staticSucc .improve_query = some .retrieve_improved :=
  C6_query_retention_on_rewrite_failure envC6 (afterCritique envC6 "q") q05
    ["outdated info"] [] "FLAW: outdated info" (some true) "rewrite LLM down"
    (by decide) rfl

/-! ### C7 -/

/-- A run whose improved retrieval raises: the first retrieval (on the
original query) succeeds, the retrieval on the rewritten query "q2" fails. -/
def envC7 : Env :=
  { retrieve := fun qq => if qq = "what is useState" then .ok [docA] else .error "store down"
    generate_initial := fun _ _ => .ok genA
    generate_improved := fun _ _ _ _ => .ok genB
    critiqueLLM := fun _ _ _ => .ok "FLAW: outdated info"
    improveLLM := fun _ _ _ _ => .ok "q2"
    maxReflectionCycles := 2 }

/-- C7 counterexample: a run whose improved retrieval raises ends the stage
with the passage and source lists still holding the *initial* retrieval's
values — they are not emptied, refuting the claim's "empty passage list (and
empty source list)". The error step and the continuation to improved
generation do hold. -/
theorem C7_counterexample :
    envC7.retrieve (afterImprove envC7 "what is useState").query = .error "store down" ∧
    (afterRetrieve2 envC7 "what is useState").retrieved_docs = [docA] ∧
    (afterRetrieve2 envC7 "what is useState").context_sources = ["react.dev"] ∧
    (afterRetrieve2 envC7 "what is useState").thinking_process.getLast? =
      some ⟨"retrieve_improved", none, some "store down"⟩ ∧
    visited envC7 "what is useState" =
      [.retrieve, .generate, .critique, .improve_query,
       .retrieve_improved, .generate_improved, .finalize] := by
  refine ⟨rfl, by decide, by decide, by decide, ?_⟩
  rw [visited_eq, if_pos (by decide)]

/-- C7 (amended): when the improved retrieval call raises, a Step carrying the
error is appended and the run proceeds to improved generation, but — unlike
the initial retrieval stage, which resets both lists to empty on failure —
the passage and source lists are left unchanged, retaining their values from
before the stage. -/
theorem C7_improved_retrieval_failure (env : Env) (s : RAGState) (e : String)
    (h : env.retrieve s.query = .error e) :
    (retrieve_improved env s).retrieved_docs = s.retrieved_docs ∧
    (retrieve_improved env s).context_sources = s.context_sources ∧
    (retrieve_improved env s).thinking_process =
      s.thinking_process ++ [⟨"retrieve_improved", none, some e⟩] ∧
    staticSucc .retrieve_improved = some .generate_improved ∧
    (retrieve_documents env s).retrieved_docs = [] ∧
    (retrieve_documents env s).context_sources = [] := by
  have h2 := retrieve_improved_error env s e h
  have h3 := retrieve_documents_error env s e h
  refine ⟨?_, ?_, ?_, rfl, ?_, ?_⟩
  · rw [h2]
  · rw [h2]
  · rw [h2]
  · rw [h3]
  · rw [h3]

/-- An environment whose retrieval always raises. -/
def envRetErr : Env :=
  { retrieve := fun _ => .error "down"
    generate_initial := fun _ _ => .ok genA
    generate_improved := fun _ _ _ _ => .ok genB
    critiqueLLM := fun _ _ _ => .ok "APPROVED"
    improveLLM := fun _ _ _ _ => .ok "q2"
    maxReflectionCycles := 2 }

/-- C7 witness: the amended statement at a concrete failing retrieval, on a
state that holds passages from a previous retrieval. -/
theorem C7_improved_retrieval_failure_witness :
    (retrieve_improved envRetErr (afterRetrieve envC7 "what is useState")).retrieved_docs =
      (afterRetrieve envC7 "what is useState").retrieved_docs ∧
    (retrieve_improved envRetErr (afterRetrieve envC7 "what is useState")).context_sources =
      (afterRetrieve envC7 "what is useState").context_sources ∧
    (retrieve_improved envRetErr (afterRetrieve envC7 "what is useState")).thinking_process =
      (afterRetrieve envC7 "what is useState").thinking_process ++
        [⟨"retrieve_improved", none, some "down"⟩] ∧
    staticSucc .retrieve_improved = some .generate_improved ∧
    (retrieve_documents envRetErr (afterRetrieve envC7 "what is useState")).retrieved_docs = [] ∧
    (retrieve_documents envRetErr (afterRetrieve envC7 "what is useState")).context_sources = [] :=
  C7_improved_retrieval_failure envRetErr (afterRetrieve envC7 "what is useState") "down" rfl

/-! ### C10 -/

/-- Topological position of each node in the workflow graph. -/
def nodeOrd : Node → Nat
  | .START => 0
  | .retrieve => 1
  | .generate => 2
  | .critique => 3
  | .improve_query => 4
  | .retrieve_improved => 5
  | .generate_improved => 6
  | .finalize => 7
  | .END => 8

/-- The edge relation of the graph built by `_build_workflow`: the static
edges plus the two possible targets of the conditional edge at `critique`. -/
def edgeRel (n m : Node) : Prop :=
  staticSucc n = some m ∨ (n = .critique ∧ (m = .improve_query ∨ m = .finalize))

instance (n m : Node) : Decidable (edgeRel n m) := by
  unfold edgeRel; infer_instance

theorem retrieve_documents_iteration (env : Env) (s : RAGState) :
    (retrieve_documents env s).iteration_count = s.iteration_count := by
  unfold retrieve_documents
  cases env.retrieve s.query <;> rfl

theorem generate_response_iteration (env : Env) (s : RAGState) :
    (generate_response env s).iteration_count = s.iteration_count := by
  unfold generate_response
  cases env.generate_initial s.query s.retrieved_docs <;> rfl

theorem iteration_after_generate (env : Env) (q : String) :
    (afterGenerate env q).iteration_count = 0 := by
  unfold afterGenerate afterRetrieve
  rw [generate_response_iteration, retrieve_documents_iteration]
  rfl

/-- `iteration_count` is unchanged along the improvement path. -/
theorem iteration_after_path (env : Env) (q : String) :
    (afterGenerate2 env q).iteration_count = (afterCritique env q).iteration_count := by
  unfold afterGenerate2 afterRetrieve2 afterImprove
  rw [(generate_improved_node_preserves _ _).2.2.2,
    (retrieve_improved_preserves _ _).2.2.2.2.1,
    (improve_query_preserves _ _).2.2.2.1]

/-- `confidence_score` is unchanged along the improvement path. -/
theorem confidence_after_path (env : Env) (q : String) :
    (afterGenerate2 env q).confidence_score = (afterCritique env q).confidence_score := by
  unfold afterGenerate2 afterRetrieve2 afterImprove
  rw [(generate_improved_node_preserves _ _).2.1,
    (retrieve_improved_preserves _ _).2.2.1,
    (improve_query_preserves _ _).2.1]

theorem run_iteration_eq (env : Env) (q : String) :
    (runState env q).iteration_count = (afterCritique env q).iteration_count := by
  rw [runState_eq]
  split_ifs
  · show (afterGenerate2 env q).iteration_count = _
    exact iteration_after_path env q
  · rfl

/-- C10: the compiled workflow graph is acyclic — every (conditional or
unconditional) edge strictly increases the topological position — so each node
executes at most once per run: the critique node runs exactly once, the
rewrite node at most once, and `iteration_count` never exceeds 1, for every
environment (hence regardless of the configured `max_iterations`). -/
theorem C10_graph_acyclic_single_execution :
    (∀ n m : Node, edgeRel n m → nodeOrd n < nodeOrd m) ∧
    (∀ (env : Env) (s : RAGState) (n m : Node), succNode env n s = some m → edgeRel n m) ∧
    (∀ (env : Env) (q : String),
      (visited env q).count .critique = 1 ∧
      (visited env q).count .improve_query ≤ 1 ∧
      (∀ n : Node, (visited env q).count n ≤ 1) ∧
      (runState env q).iteration_count ≤ 1) := by
  refine ⟨by decide, ?_, ?_⟩
  · intro env s n m h
    cases n
    case critique =>
      have hc : condMap (should_improve s) = some m := h
      unfold condMap at hc
      split_ifs at hc
      · cases hc; exact Or.inr ⟨rfl, Or.inl rfl⟩
      · cases hc; exact Or.inr ⟨rfl, Or.inr rfl⟩
    all_goals exact Or.inl h
  · intro env q
    have hiter : (runState env q).iteration_count ≤ 1 := by
      rw [run_iteration_eq]
      rcases critique_node_iteration env (afterGenerate env q) with h1 | h1
      · have : (afterCritique env q).iteration_count = 1 := h1
        omega
      · have : (afterCritique env q).iteration_count = (afterGenerate env q).iteration_count := h1
        rw [this, iteration_after_generate]
        omega
    rcases should_improve_cases (afterCritique env q) with h | h
    · rw [visited_eq, if_pos h]
      exact ⟨by decide, by decide, by decide, hiter⟩
    · have hne : ¬ should_improve (afterCritique env q) = "improve" := by
        rw [h]; decide
      rw [visited_eq, if_neg hne]
      exact ⟨by decide, by decide, by decide, hiter⟩

/-- C10 witness: the theorem applied at concrete edges and a concrete run. -/
theorem C10_graph_acyclic_single_execution_witness :
    nodeOrd .critique < nodeOrd .finalize ∧
    edgeRel .retrieve .generate ∧
    (visited envC2 "q").count .critique = 1 ∧
    (runState envC2 "q").iteration_count ≤ 1 :=
  ⟨C10_graph_acyclic_single_execution.1 .critique .finalize (by decide),
   C10_graph_acyclic_single_execution.2.1 envC2 (initialState envC2 "q")
     .retrieve .generate rfl,
   (C10_graph_acyclic_single_execution.2.2 envC2 "q").1,
   (C10_graph_acyclic_single_execution.2.2 envC2 "q").2.2.2⟩

/-! ### C9 -/

/-- The `step` string each node writes into its trace entries (and the name
under which `_build_workflow` registers it). -/
def nodeName : Node → String
  | .START => "START"
  | .retrieve => "retrieve"
  | .generate => "generate"
  | .critique => "critique"
  | .improve_query => "improve_query"
  | .retrieve_improved => "retrieve_improved"
  | .generate_improved => "generate_improved"
  | .finalize => "finalize"
  | .END => "END"

theorem trace_stages_improve (env : Env) (q : String)
    (h : should_improve (afterCritique env q) = "improve") :
    (runState env q).thinking_process.map Step.step =
      ["retrieve", "generate", "critique", "improve_query",
       "retrieve_improved", "generate_improved", "finalize"] := by
  obtain ⟨s1, h1s, h1⟩ := trace_retrieve env (initialState env q)
  obtain ⟨s2, h2s, h2⟩ := trace_generate env (afterRetrieve env q)
  obtain ⟨s3, h3s, h3⟩ := trace_critique env (afterGenerate env q)
  obtain ⟨s4, h4s, h4⟩ := trace_improve_query env (afterCritique env q)
  obtain ⟨s5, h5s, h5⟩ := trace_retrieve_improved env (afterImprove env q)
  obtain ⟨s6, h6s, h6⟩ := trace_generate_improved env (afterRetrieve2 env q)
  obtain ⟨s7, h7s, h7⟩ := trace_finalize (afterGenerate2 env q)
  have h1' : (afterRetrieve env q).thinking_process = [s1] := h1
  have h2' : (afterGenerate env q).thinking_process =
    (afterRetrieve env q).thinking_process ++ [s2] := h2
  have h3' : (afterCritique env q).thinking_process =
    (afterGenerate env q).thinking_process ++ [s3] := h3
  have h4' : (afterImprove env q).thinking_process =
    (afterCritique env q).thinking_process ++ [s4] := h4
  have h5' : (afterRetrieve2 env q).thinking_process =
    (afterImprove env q).thinking_process ++ [s5] := h5
  have h6' : (afterGenerate2 env q).thinking_process =
    (afterRetrieve2 env q).thinking_process ++ [s6] := h6
  rw [runState_eq, if_pos h, h7, h6', h5', h4', h3', h2', h1']
  simp [h1s, h2s, h3s, h4s, h5s, h6s, h7s]

theorem trace_stages_finalize (env : Env) (q : String)
    (h : ¬ should_improve (afterCritique env q) = "improve") :
    (runState env q).thinking_process.map Step.step =
      ["retrieve", "generate", "critique", "finalize"] := by
  obtain ⟨s1, h1s, h1⟩ := trace_retrieve env (initialState env q)
  obtain ⟨s2, h2s, h2⟩ := trace_generate env (afterRetrieve env q)
  obtain ⟨s3, h3s, h3⟩ := trace_critique env (afterGenerate env q)
  obtain ⟨s7, h7s, h7⟩ := trace_finalize (afterCritique env q)
  have h1' : (afterRetrieve env q).thinking_process = [s1] := h1
  have h2' : (afterGenerate env q).thinking_process =
    (afterRetrieve env q).thinking_process ++ [s2] := h2
  have h3' : (afterCritique env q).thinking_process =
    (afterGenerate env q).thinking_process ++ [s3] := h3
  rw [runState_eq, if_neg h, h7, h3', h2', h1']
  simp [h1s, h2s, h3s, h7s]

/-- C9: every stage execution appends exactly one step, and the trace order is
the execution order — the trace's `step` names are exactly the executed nodes'
names, in order; in particular, a single-pass approved run has a trace of
exactly `retrieve, generate, critique, finalize`. -/
theorem C9_trace_completeness :
    (∀ (env : Env) (q : String),
      (runState env q).thinking_process.map Step.step = (visited env q).map nodeName) ∧
    (∀ (env : Env) (q : String), (afterCritique env q).is_approved = true →
      (runState env q).thinking_process.map Step.step =
        ["retrieve", "generate", "critique", "finalize"]) := by
  have key : ∀ (env : Env) (q : String),
      (runState env q).thinking_process.map Step.step = (visited env q).map nodeName := by
    intro env q
    rcases should_improve_cases (afterCritique env q) with h | h
    · rw [trace_stages_improve env q h, visited_eq, if_pos h]
      decide
    · have hne : ¬ should_improve (afterCritique env q) = "improve" := by
        rw [h]; decide
      rw [trace_stages_finalize env q hne, visited_eq, if_neg hne]
      decide
  refine ⟨key, ?_⟩
  intro env q h
  exact trace_stages_finalize env q (by rw [should_improve_of_approved _ h]; decide)

/-- An environment whose critic approves every answer. -/
def envApprove : Env :=
  { retrieve := fun _ => .ok [docA]
    generate_initial := fun _ _ => .ok genA
    generate_improved := fun _ _ _ _ => .ok genB
    critiqueLLM := fun _ _ _ => .ok "APPROVED"
    improveLLM := fun _ _ _ _ => .ok "q2"
    maxReflectionCycles := 2 }

/-- C9 witness: the trace equalities at a concrete approving run. -/
theorem C9_trace_completeness_witness :
    ((runState envApprove "q").thinking_process.map Step.step =
      (visited envApprove "q").map nodeName) ∧
    ((runState envApprove "q").thinking_process.map Step.step =
      ["retrieve", "generate", "critique", "finalize"]) :=
  ⟨C9_trace_completeness.1 envApprove "q",
   C9_trace_completeness.2 envApprove "q" (by decide)⟩

/-! ### C3 -/

/-- A critic that rejects every answer (one flaw), with the reflection bound
configured to 1. -/
def envC3 : Env :=
  { retrieve := fun _ => .ok [docA]
    generate_initial := fun _ _ => .ok genA
    generate_improved := fun _ _ _ _ => .ok genB
    critiqueLLM := fun _ _ _ => .ok "FLAW: bad"
    improveLLM := fun _ _ _ _ => .ok "q2"
    maxReflectionCycles := 1 }

/-- C3 counterexample: with `max_iterations = 1` and an always-rejecting
critic, *zero* rewrite cycles occur (the trace is just
`retrieve, generate, critique, finalize`), refuting the claim's "exactly one
rewrite cycle occurs".  The confidence part does hold (0.5 for the one-flaw
critique, not 0.9). -/
theorem C3_counterexample :
    envC3.maxReflectionCycles = 1 ∧
    (∀ q r src, envC3.critiqueLLM q r src = .ok "FLAW: bad") ∧
    (parse_critique_response "FLAW: bad").is_approved = false ∧
    visited envC3 "q" = [.retrieve, .generate, .critique, .finalize] ∧
    (visited envC3 "q").count .improve_query = 0 ∧
    (runState envC3 "q").confidence_score = 0.5 := by
  refine ⟨rfl, fun _ _ _ => rfl, by decide, by decide, by decide, ?_⟩
  have h : (runState envC3 "q").confidence_score = q05 := by decide
  rw [h, q05_eq]

/-- C3 (amended): with `max_iterations = 1` and a critic that rejects every
answer it is shown, *no* rewrite cycle occurs — the single critique already
sets `iteration_count = 1`, which meets the bound, so the run finalizes
directly; finalize accepts the still-rejected answer and the final confidence
is the value the critique produced (0.7, 0.5 or 0.3 per its flaw count),
never 0.9. -/
theorem C3_budget_exhaustion (env : Env) (q : String)
    (hmax : env.maxReflectionCycles = 1)
    (hrej : ∀ q' r src, ∃ txt, env.critiqueLLM q' r src = .ok txt ∧
      (parse_critique_response txt).is_approved = false) :
    visited env q = [.retrieve, .generate, .critique, .finalize] ∧
    (runState env q).final_response = (afterCritique env q).response ∧
    (∃ txt, env.critiqueLLM (afterGenerate env q).query (afterGenerate env q).response
        (afterGenerate env q).context_sources = .ok txt ∧
      (parse_critique_response txt).is_approved = false ∧
      (runState env q).confidence_score =
        calculate_confidence_score (parse_critique_response txt)) ∧
    ((runState env q).confidence_score = 0.7 ∨ (runState env q).confidence_score = 0.5 ∨
      (runState env q).confidence_score = 0.3) ∧
    (runState env q).confidence_score ≠ 0.9 := by
  obtain ⟨txt, htxt, hnotapp⟩ := hrej (afterGenerate env q).query
    (afterGenerate env q).response (afterGenerate env q).context_sources
  have hcrit : afterCritique env q =
      { afterGenerate env q with
        critique_result := some (critiqueDictOf txt)
        is_approved := (parse_critique_response txt).is_approved
        confidence_score := calculate_confidence_score (parse_critique_response txt)
        iteration_count := 1
        max_iterations := env.maxReflectionCycles
        thinking_process :=
          (afterGenerate env q).thinking_process ++
            [⟨"critique", some "🧠 Self-critique analysis", none⟩] } :=
    critique_node_ok env (afterGenerate env q) txt htxt
  have happ : (afterCritique env q).is_approved = false := by rw [hcrit]; exact hnotapp
  have hit : (afterCritique env q).iteration_count = 1 := by rw [hcrit]
  have hmaxs : (afterCritique env q).max_iterations = 1 := by rw [hcrit]; exact hmax
  have hfin : should_improve (afterCritique env q) = "finalize" :=
    should_improve_eq_finalize_exhausted _ happ (by rw [hit, hmaxs])
  have hne : ¬ should_improve (afterCritique env q) = "improve" := by rw [hfin]; decide
  have hconf : (runState env q).confidence_score =
      calculate_confidence_score (parse_critique_response txt) := by
    rw [runState_eq, if_neg hne]
    show (afterCritique env q).confidence_score = _
    rw [hcrit]
  refine ⟨?_, ?_, ⟨txt, htxt, hnotapp, hconf⟩, ?_, ?_⟩
  · rw [visited_eq, if_neg hne]
  · rw [runState_eq, if_neg hne]
    rfl
  · rcases confidence_rejected_range _ hnotapp with h | h | h
    · exact Or.inl (by rw [hconf, h, q07_eq])
    · exact Or.inr (Or.inl (by rw [hconf, h, q05_eq]))
    · exact Or.inr (Or.inr (by rw [hconf, h, q03_eq]))
  · intro hEq
    rw [hconf] at hEq
    rcases confidence_rejected_range _ hnotapp with h | h | h
    · rw [h, q07_eq] at hEq; norm_num at hEq
    · rw [h, q05_eq] at hEq; norm_num at hEq
    · rw [h, q03_eq] at hEq; norm_num at hEq

/-- C3 witness: the amended statement at the concrete always-rejecting run. -/
theorem C3_budget_exhaustion_witness :
    visited envC3 "q" = [.retrieve, .generate, .critique, .finalize] ∧
    (runState envC3 "q").final_response = (afterCritique envC3 "q").response ∧
    (∃ txt, envC3.critiqueLLM (afterGenerate envC3 "q").query
        (afterGenerate envC3 "q").response (afterGenerate envC3 "q").context_sources =
          .ok txt ∧
      (parse_critique_response txt).is_approved = false ∧
      (runState envC3 "q").confidence_score =
        calculate_confidence_score (parse_critique_response txt)) ∧
    ((runState envC3 "q").confidence_score = 0.7 ∨
      (runState envC3 "q").confidence_score = 0.5 ∨
      (runState envC3 "q").confidence_score = 0.3) ∧
    (runState envC3 "q").confidence_score ≠ 0.9 :=
  C3_budget_exhaustion envC3 "q" rfl
    (fun _ _ _ => ⟨"FLAW: bad", rfl, by decide⟩)

/-! ### C4 -/

/-- The spec's abstract stage name for each trace `step` string (the spec's
Step enum folds the improved retrieval/generation into `retrieve`/`generate`
and calls the rewrite stage `rewrite_query`). -/
def specStageOf : String → String
  | "improve_query" => "rewrite_query"
  | "retrieve_improved" => "retrieve"
  | "generate_improved" => "generate"
  | st => st

/-- A critic that rejects the first answer (`"answer one"`) with two flaws and
approves anything else, with the reflection bound configured to 2. -/
def envC4 : Env :=
  { retrieve := fun _ => .ok [docA]
    generate_initial := fun _ _ => .ok genA
    generate_improved := fun _ _ _ _ => .ok genB
    critiqueLLM := fun _ r _ =>
      if r = "answer one" then .ok "FLAW: a. FLAW: b." else .ok "APPROVED"
    improveLLM := fun _ _ _ _ => .ok "q2"
    maxReflectionCycles := 2 }

/-- C4 counterexample: a run matching the claim's premises — `max_iterations
= 2`, first answer rejected with 2 flaws, second answer one the critic would
approve — produces the 7-step trace, but its final confidence is 0.5 (the
first critique's value), not 0.9: the improved answer is never re-critiqued,
refuting "the final confidence equals 0.9". -/
theorem C4_counterexample :
    envC4.maxReflectionCycles = 2 ∧
    envC4.critiqueLLM "q" "answer one" ["react.dev"] = .ok "FLAW: a. FLAW: b." ∧
    (parse_critique_response "FLAW: a. FLAW: b.").is_approved = false ∧
    (parse_critique_response "FLAW: a. FLAW: b.").flaws.length = 2 ∧
    envC4.critiqueLLM "q2" "answer two" ["react.dev"] = .ok "APPROVED" ∧
    (parse_critique_response "APPROVED").is_approved = true ∧
    (runState envC4 "q").thinking_process.length = 7 ∧
    (visited envC4 "q").count .critique = 1 ∧
    (runState envC4 "q").confidence_score = 0.5 ∧
    (runState envC4 "q").confidence_score ≠ 0.9 := by
  have h5 : (runState envC4 "q").confidence_score = q05 := by decide
  refine ⟨rfl, rfl, by decide, by decide, rfl, by decide, by decide, by decide, ?_, ?_⟩
  · rw [h5, q05_eq]
  · rw [h5, q05_eq]; norm_num

/-- C4 (amended): with `max_iterations = 2` and a critic that rejects the
first answer with 2 flaws, the trace has exactly 7 steps whose spec-level
stages are retrieve, generate, critique, rewrite_query, retrieve, generate,
finalize in that order; but the critic is never invoked on the second answer,
so the final confidence equals 0.5 (the first critique's two-flaw value), not
0.9. -/
theorem C4_one_reflection_cycle (env : Env) (q txt : String)
    (hmax : env.maxReflectionCycles = 2)
    (htxt : env.critiqueLLM (afterGenerate env q).query (afterGenerate env q).response
      (afterGenerate env q).context_sources = .ok txt)
    (hnotapp : (parse_critique_response txt).is_approved = false)
    (hfl : (parse_critique_response txt).flaws.length = 2) :
    ((runState env q).thinking_process.map Step.step).map specStageOf =
      ["retrieve", "generate", "critique", "rewrite_query",
       "retrieve", "generate", "finalize"] ∧
    (runState env q).thinking_process.length = 7 ∧
    (runState env q).confidence_score = 0.5 ∧
    (runState env q).confidence_score ≠ 0.9 := by
  have hcrit : afterCritique env q =
      { afterGenerate env q with
        critique_result := some (critiqueDictOf txt)
        is_approved := (parse_critique_response txt).is_approved
        confidence_score := calculate_confidence_score (parse_critique_response txt)
        iteration_count := 1
        max_iterations := env.maxReflectionCycles
        thinking_process :=
          (afterGenerate env q).thinking_process ++
            [⟨"critique", some "🧠 Self-critique analysis", none⟩] } :=
    critique_node_ok env (afterGenerate env q) txt htxt
  have happ : (afterCritique env q).is_approved = false := by rw [hcrit]; exact hnotapp
  have hit : (afterCritique env q).iteration_count = 1 := by rw [hcrit]
  have hmaxs : (afterCritique env q).max_iterations = 2 := by rw [hcrit]; exact hmax
  have himp : should_improve (afterCritique env q) = "improve" :=
    should_improve_eq_improve _ happ (by rw [hit, hmaxs]; norm_num)
  have htr := trace_stages_improve env q himp
  have hc5 : (runState env q).confidence_score = 0.5 := by
    rw [runState_eq, if_pos himp]
    show (afterGenerate2 env q).confidence_score = 0.5
    rw [confidence_after_path, hcrit]
    show calculate_confidence_score (parse_critique_response txt) = 0.5
    unfold calculate_confidence_score
    rw [hnotapp]
    simp only [Bool.false_eq_true, if_false]
    rw [if_neg (by omega), if_pos (by omega), q05_eq]
  refine ⟨?_, ?_, hc5, ?_⟩
  · rw [htr]; decide
  · calc (runState env q).thinking_process.length
        = ((runState env q).thinking_process.map Step.step).length := by simp
      _ = 7 := by rw [htr]; decide
  · rw [hc5]; norm_num

/-- C4 witness: the amended statement at the concrete two-flaw rejection. -/
theorem C4_one_reflection_cycle_witness :
    ((runState envC4 "q").thinking_process.map Step.step).map specStageOf =
      ["retrieve", "generate", "critique", "rewrite_query",
       "retrieve", "generate", "finalize"] ∧
    (runState envC4 "q").thinking_process.length = 7 ∧
    (runState envC4 "q").confidence_score = 0.5 ∧
    (runState envC4 "q").confidence_score ≠ 0.9 :=
  C4_one_reflection_cycle envC4 "q" "FLAW: a. FLAW: b." rfl rfl (by decide) (by decide)

/-! ### C5 -/

/-- Tuple-encoding of the four arguments of an improved-generation call into
one string, used to observe which values the call receives. -/
def packArgs (a b c : String) (docs : List Doc) : String :=
  a ++ "§" ++ b ++ "§" ++ c ++ "§" ++ String.join (docs.map Doc.page_content)

/-- An improved-generation oracle that records its four arguments in its output
(`content` is the `packArgs` encoding), making the received values visible in
the final response. -/
def echoGen : String → String → String → List Doc → Except String GenData :=
  fun a b c docs =>
    .ok ⟨packArgs a b c docs, docs.length,
         docs.map (fun d => d.source.getD "Unknown"), packArgs a b c docs, some true⟩

/-- A run whose rewrite succeeds with a different query and whose
improved-generation oracle echoes its arguments. -/
def envC5 : Env :=
  { retrieve := fun _ => .ok [docA]
    generate_initial := fun _ _ => .ok genA
    generate_improved := echoGen
    critiqueLLM := fun _ _ _ => .ok "FLAW: bad"
    improveLLM := fun _ _ _ _ => .ok "NEWQUERY"
    maxReflectionCycles := 2 }

/-- C5 counterexample: in a run whose rewrite succeeds with `"NEWQUERY"`, the
improvement-mode generation call receives `"NEWQUERY"` as its query argument
(visible in the echoed final response), not the original user query
`"orig query"` — refuting the claim that it receives the query as it was
before the rewrite stage. -/
theorem C5_counterexample :
    (afterCritique envC5 "orig query").query = "orig query" ∧
    (afterImprove envC5 "orig query").query = "NEWQUERY" ∧
    (runState envC5 "orig query").final_response =
      packArgs "NEWQUERY" "answer one" "FLAW: bad" [docA] ∧
    packArgs "NEWQUERY" "answer one" "FLAW: bad" [docA] ≠
      packArgs "orig query" "answer one" "FLAW: bad" [docA] := by
  refine ⟨by decide, by decide, ?_, by decide⟩
  decide

/-- C5 (amended): on the improvement path, the improvement-mode generation
call receives the *current* query — the critic's rewritten query (stripped),
or the original only if the rewrite failed — together with the prior answer,
the critique's raw feedback text, and the newly retrieved passages.  Observed
through an argument-echoing generation oracle: the final response is exactly
the encoding of (rewritten query, prior answer, raw critique, new passages). -/
theorem C5_improved_generation_arguments (env : Env) (q txt q' : String)
    (docs2 : List Doc)
    (hecho : env.generate_improved = echoGen)
    (htxt : env.critiqueLLM (afterGenerate env q).query (afterGenerate env q).response
      (afterGenerate env q).context_sources = .ok txt)
    (hnotapp : (parse_critique_response txt).is_approved = false)
    (hbound : 1 < env.maxReflectionCycles)
    (himpr : env.improveLLM (afterCritique env q).query
      (parse_critique_response txt).flaws (parse_critique_response txt).suggestions
      txt = .ok q')
    (hret2 : env.retrieve (String.mk (pyStrip q'.toList)) = .ok docs2) :
    (afterCritique env q).query = q ∧
    (afterImprove env q).query = String.mk (pyStrip q'.toList) ∧
    (runState env q).final_response =
      packArgs (String.mk (pyStrip q'.toList)) (afterGenerate env q).response txt docs2 := by
  have hcrit : afterCritique env q =
      { afterGenerate env q with
        critique_result := some (critiqueDictOf txt)
        is_approved := (parse_critique_response txt).is_approved
        confidence_score := calculate_confidence_score (parse_critique_response txt)
        iteration_count := 1
        max_iterations := env.maxReflectionCycles
        thinking_process :=
          (afterGenerate env q).thinking_process ++
            [⟨"critique", some "🧠 Self-critique analysis", none⟩] } :=
    critique_node_ok env (afterGenerate env q) txt htxt
  have hq3 : (afterCritique env q).query = q := by
    have a1 : (afterRetrieve env q).query = q :=
      retrieve_documents_query env (initialState env q)
    have a2 : (afterGenerate env q).query = (afterRetrieve env q).query :=
      generate_response_query env (afterRetrieve env q)
    have a3 : (afterCritique env q).query = (afterGenerate env q).query :=
      critique_node_query env (afterGenerate env q)
    rw [a3, a2, a1]
  have happ : (afterCritique env q).is_approved = false := by rw [hcrit]; exact hnotapp
  have hit : (afterCritique env q).iteration_count = 1 := by rw [hcrit]
  have hmaxs : (afterCritique env q).max_iterations = env.maxReflectionCycles := by
    rw [hcrit]
  have himp : should_improve (afterCritique env q) = "improve" :=
    should_improve_eq_improve _ happ (by rw [hit, hmaxs]; exact hbound)
  have hdict : critiqueDictOf txt =
      ⟨false, calculate_confidence_score (parse_critique_response txt),
       some (parse_critique_response txt).flaws,
       some (parse_critique_response txt).suggestions, some txt, some true⟩ := by
    unfold critiqueDictOf
    rw [hnotapp]
    rfl
  have hcr3 : (afterCritique env q).critique_result = some (critiqueDictOf txt) := by
    rw [hcrit]
  have hq4 : (afterImprove env q).query = String.mk (pyStrip q'.toList) := by
    have e1 : (afterImprove env q).query =
        generate_improved_query env (afterCritique env q).query
          (afterCritique env q).critique_result := rfl
    rw [e1, hcr3, hdict]
    exact giq_llm_ok env (afterCritique env q).query _ _ _ _ _ q' himpr
  refine ⟨hq3, hq4, ?_⟩
  have hcr4 : (afterImprove env q).critique_result = some (critiqueDictOf txt) := by
    have e : (afterImprove env q).critique_result =
        (afterCritique env q).critique_result :=
      (improve_query_preserves env (afterCritique env q)).2.2.2.2.1
    rw [e, hcr3]
  have hret2' : env.retrieve (afterImprove env q).query = .ok docs2 := by
    rw [hq4]; exact hret2
  have hr2 : afterRetrieve2 env q =
      { afterImprove env q with
        retrieved_docs := docs2
        context_sources := docs2.map (fun d => d.source.getD "Unknown")
        thinking_process :=
          (afterImprove env q).thinking_process ++
            [⟨"retrieve_improved", some "🔄 Re-retrieving with improved query", none⟩] } :=
    retrieve_improved_ok env (afterImprove env q) docs2 hret2'
  have hresp4 : (afterRetrieve2 env q).response = (afterGenerate env q).response := by
    have e1 : (afterRetrieve2 env q).response = (afterImprove env q).response := by
      rw [hr2]
    have e2 : (afterImprove env q).response = (afterCritique env q).response :=
      (improve_query_preserves env (afterCritique env q)).1
    have e3 : (afterCritique env q).response = (afterGenerate env q).response :=
      critique_node_response env (afterGenerate env q)
    rw [e1, e2, e3]
  have hq5 : (afterRetrieve2 env q).query = String.mk (pyStrip q'.toList) := by
    rw [hr2]; exact hq4
  have hdocs5 : (afterRetrieve2 env q).retrieved_docs = docs2 := by rw [hr2]
  have hcr5 : (afterRetrieve2 env q).critique_result = some (critiqueDictOf txt) := by
    have e : (afterRetrieve2 env q).critique_result =
        (afterImprove env q).critique_result := by rw [hr2]
    rw [e, hcr4]
  have hbind : (afterRetrieve2 env q).critique_result.bind CritiqueDict.raw_critique =
      some txt := by
    rw [hcr5, hdict]
    rfl
  have hcall : env.generate_improved (afterRetrieve2 env q).query
      (afterRetrieve2 env q).response txt (afterRetrieve2 env q).retrieved_docs =
      .ok ⟨packArgs (String.mk (pyStrip q'.toList)) (afterGenerate env q).response txt docs2,
           docs2.length, docs2.map (fun d => d.source.getD "Unknown"),
           packArgs (String.mk (pyStrip q'.toList)) (afterGenerate env q).response txt docs2,
           some true⟩ := by
    rw [hecho, hq5, hresp4, hdocs5]
    rfl
  have hg2 : afterGenerate2 env q =
      { afterRetrieve2 env q with
        response :=
          packArgs (String.mk (pyStrip q'.toList)) (afterGenerate env q).response txt docs2
        response_metadata :=
          some ⟨packArgs (String.mk (pyStrip q'.toList)) (afterGenerate env q).response txt
                  docs2,
                docs2.length, docs2.map (fun d => d.source.getD "Unknown"),
                packArgs (String.mk (pyStrip q'.toList)) (afterGenerate env q).response txt
                  docs2,
                some true⟩
        thinking_process :=
          (afterRetrieve2 env q).thinking_process ++
            [⟨"generate_improved", some "✨ Generating improved response", none⟩] } :=
    generate_improved_node_ok env (afterRetrieve2 env q) txt _ hbind hcall
  rw [runState_eq, if_pos himp]
  show (afterGenerate2 env q).response = _
  rw [hg2]

/-- C5 witness: the amended statement at the concrete echoing run. -/
theorem C5_improved_generation_arguments_witness :
    (afterCritique envC5 "orig query").query = "orig query" ∧
    (afterImprove envC5 "orig query").query = String.mk (pyStrip "NEWQUERY".toList) ∧
    (runState envC5 "orig query").final_response =
      packArgs (String.mk (pyStrip "NEWQUERY".toList))
        (afterGenerate envC5 "orig query").response "FLAW: bad" [docA] :=
  C5_improved_generation_arguments envC5 "orig query" "FLAW: bad" "NEWQUERY" [docA]
    rfl rfl (by decide) (by decide) rfl rfl

/-! ### C8: substring lemmas -/

theorem startsWith_iff_exists (pat : List Char) :
    ∀ l : List Char, startsWith pat l = true ↔ ∃ rest, l = pat ++ rest := by
  induction pat with
  | nil =>
    intro l
    simp [startsWith]
  | cons p ps ih =>
    intro l
    cases l with
    | nil => simp [startsWith]
    | cons c cs =>
      simp only [startsWith, Bool.and_eq_true, decide_eq_true_eq, ih cs,
        List.cons_append, List.cons.injEq]
      constructor
      · rintro ⟨rfl, rest, rfl⟩
        exact ⟨rest, rfl, rfl⟩
      · rintro ⟨rest, rfl, rfl⟩
        exact ⟨rfl, rest, rfl⟩

theorem hasSubstr_iff_exists (pat : List Char) :
    ∀ l : List Char, hasSubstr pat l = true ↔ ∃ a b, l = a ++ pat ++ b := by
  intro l
  induction l with
  | nil =>
    simp only [hasSubstr, List.isEmpty_iff]
    constructor
    · rintro rfl
      exact ⟨[], [], rfl⟩
    · rintro ⟨a, b, h⟩
      rcases a <;> rcases pat <;> simp_all
  | cons c cs ih =>
    simp only [hasSubstr, Bool.or_eq_true, startsWith_iff_exists, ih]
    constructor
    · rintro (⟨rest, h⟩ | ⟨a, b, h⟩)
      · exact ⟨[], rest, by simpa using h⟩
      · exact ⟨c :: a, b, by simp [h]⟩
    · rintro ⟨a, b, h⟩
      cases a with
      | nil => exact Or.inl ⟨b, by simpa using h⟩
      | cons a0 as =>
        simp only [List.cons_append, List.cons.injEq] at h
        exact Or.inr ⟨as, b, h.2⟩

theorem hasSubstr_reverse_iff (pat l : List Char) :
    hasSubstr pat l.reverse = true ↔ hasSubstr pat.reverse l = true := by
  rw [hasSubstr_iff_exists, hasSubstr_iff_exists]
  constructor
  · rintro ⟨a, b, h⟩
    refine ⟨b.reverse, a.reverse, ?_⟩
    have := congrArg List.reverse h
    simpa [List.reverse_append, List.append_assoc] using this
  · rintro ⟨a, b, h⟩
    refine ⟨b.reverse, a.reverse, ?_⟩
    have := congrArg List.reverse h
    simpa [List.reverse_append, List.append_assoc] using this

theorem hasSubstr_dropWhile_iff (pat : List Char) (hpat : pat ≠ [])
    (hsp : ∀ ch ∈ pat, pyIsSpace ch = false) :
    ∀ l : List Char,
      (hasSubstr pat (l.dropWhile pyIsSpace) = true ↔ hasSubstr pat l = true) := by
  intro l
  induction l with
  | nil => simp
  | cons c cs ih =>
    by_cases hc : pyIsSpace c = true
    · rw [List.dropWhile_cons_of_pos hc]
      rw [ih]
      have hsw : startsWith pat (c :: cs) = false := by
        cases pat with
        | nil => exact absurd rfl hpat
        | cons p ps =>
          have hp : pyIsSpace p = false := hsp p (List.mem_cons_self p ps)
          have hpc : p ≠ c := fun h => by rw [h, hc] at hp; cases hp
          simp [startsWith, hpc]
      show _ ↔ (startsWith pat (c :: cs) || hasSubstr pat cs) = true
      rw [hsw]
      simp
    · rw [List.dropWhile_cons_of_neg hc]

theorem hasSubstr_pyStrip_iff (pat : List Char) (hpat : pat ≠ [])
    (hsp : ∀ ch ∈ pat, pyIsSpace ch = false) (l : List Char) :
    hasSubstr pat (pyStrip l) = true ↔ hasSubstr pat l = true := by
  unfold pyStrip
  rw [hasSubstr_reverse_iff,
    hasSubstr_dropWhile_iff pat.reverse (by simpa using hpat)
      (fun ch hch => hsp ch (List.mem_reverse.mp hch)),
    hasSubstr_reverse_iff, List.reverse_reverse,
    hasSubstr_dropWhile_iff pat hpat hsp]

theorem map_eq_append_decomp {α β : Type} (f : α → β) :
    ∀ (l : List α) (x y : List β), l.map f = x ++ y →
      ∃ u v, l = u ++ v ∧ u.map f = x ∧ v.map f = y := by
  intro l
  induction l with
  | nil =>
    intro x y h
    simp only [List.map_nil] at h
    rcases List.append_eq_nil.mp h.symm with ⟨rfl, rfl⟩
    exact ⟨[], [], rfl, rfl, rfl⟩
  | cons a l ih =>
    intro x y h
    cases x with
    | nil =>
      exact ⟨[], a :: l, rfl, rfl, by simpa using h⟩
    | cons x0 xs =>
      simp only [List.map_cons, List.cons_append, List.cons.injEq] at h
      obtain ⟨u, v, rfl, hu, hv⟩ := ih xs y h.2
      exact ⟨a :: u, v, rfl, by simp [h.1, hu], hv⟩

/-- The spec-level "the text contains `pat` case-insensitively, anywhere". -/
def occursCI (pat : List Char) (s : String) : Prop :=
  ∃ a m b, s.toList = a ++ m ++ b ∧ m.map Char.toLower = pat

theorem hasSubstr_pyLower_iff (pat : List Char) (l : List Char) :
    hasSubstr pat (pyLower l) = true ↔
      ∃ a m b, l = a ++ m ++ b ∧ m.map Char.toLower = pat := by
  rw [hasSubstr_iff_exists]
  constructor
  · rintro ⟨a, b, h⟩
    obtain ⟨u, v, rfl, hu, hv⟩ := map_eq_append_decomp Char.toLower l a (pat ++ b)
      (by simpa [pyLower, List.append_assoc] using h)
    obtain ⟨m, w, rfl, hm, hw⟩ := map_eq_append_decomp Char.toLower v pat b hv
    exact ⟨u, m, w, by simp [List.append_assoc], hm⟩
  · rintro ⟨a, m, b, rfl, hm⟩
    exact ⟨a.map Char.toLower, b.map Char.toLower, by simp [pyLower, hm]⟩

/-- The guard test of `parse_critique_response` (lower + strip + substring)
agrees with the spec-level case-insensitive containment, for any nonempty
whitespace-free pattern. -/
theorem guard_iff_occursCI (pat : List Char) (hpat : pat ≠ [])
    (hsp : ∀ ch ∈ pat, pyIsSpace ch = false) (c : String) :
    hasSubstr pat (pyStrip (pyLower c.toList)) = true ↔ occursCI pat c := by
  rw [hasSubstr_pyStrip_iff pat hpat hsp, hasSubstr_pyLower_iff]
  rfl

/-! ### C8: scanner lemmas -/

theorem matchesCI_take (pat : List Char) :
    ∀ l : List Char, matchesCI pat l = true →
      (l.take pat.length).map Char.toLower = pat := by
  induction pat with
  | nil => intro l _; rfl
  | cons p ps ih =>
    intro l h
    cases l with
    | nil => cases h
    | cons c cs =>
      simp only [matchesCI, Bool.and_eq_true, decide_eq_true_eq] at h
      simp only [List.length_cons, List.take_succ_cons, List.map_cons, h.1,
        List.cons.injEq, true_and]
      exact ih cs h.2

theorem matchesCI_length (pat : List Char) :
    ∀ l : List Char, matchesCI pat l = true → pat.length ≤ l.length := by
  induction pat with
  | nil => intro l _; simp
  | cons p ps ih =>
    intro l h
    cases l with
    | nil => cases h
    | cons c cs =>
      simp only [matchesCI, Bool.and_eq_true] at h
      simpa using ih cs h.2

theorem matchesCI_complete : ∀ (m rest : List Char),
    matchesCI (m.map Char.toLower) (m ++ rest) = true := by
  intro m
  induction m with
  | nil => intro rest; rfl
  | cons a as ih =>
    intro rest
    simp [matchesCI, ih rest]

theorem takeWhile_app_drop (p : Char → Bool) :
    ∀ l : List Char, l.takeWhile p ++ l.drop (l.takeWhile p).length = l := by
  intro l
  induction l with
  | nil => rfl
  | cons c cs ih =>
    by_cases hc : p c = true
    · rw [List.takeWhile_cons_of_pos hc]
      simpa using ih
    · rw [List.takeWhile_cons_of_neg hc]
      rfl

theorem take_len_takeWhile (p : Char → Bool) :
    ∀ l : List Char, l.take (l.takeWhile p).length = l.takeWhile p := by
  intro l
  induction l with
  | nil => rfl
  | cons c cs ih =>
    by_cases hc : p c = true
    · rw [List.takeWhile_cons_of_pos hc]
      simpa using ih
    · rw [List.takeWhile_cons_of_neg hc]
      rfl

theorem len_takeWhile_le (p : Char → Bool) :
    ∀ l : List Char, (l.takeWhile p).length ≤ l.length := by
  intro l
  induction l with
  | nil => simp
  | cons c cs ih =>
    by_cases hc : p c = true
    · rw [List.takeWhile_cons_of_pos hc]
      simpa using ih
    · rw [List.takeWhile_cons_of_neg hc]
      simp

theorem drop_after_takeWhile (p : Char → Bool) :
    ∀ l : List Char, l.drop (l.takeWhile p).length = [] ∨
      ∃ ch t, l.drop (l.takeWhile p).length = ch :: t ∧ p ch = false := by
  intro l
  induction l with
  | nil => exact Or.inl rfl
  | cons c cs ih =>
    by_cases hc : p c = true
    · rw [List.takeWhile_cons_of_pos hc]
      simpa using ih
    · rw [List.takeWhile_cons_of_neg hc]
      exact Or.inr ⟨c, cs, rfl, by simpa using hc⟩

theorem mem_of_mem_take_aux {n : Nat} {x : List Char} {ch : Char}
    (h : ch ∈ x.take n) : ch ∈ x := by
  rw [← List.take_append_drop n x]
  exact List.mem_append_left _ h

theorem mem_of_mem_drop_aux {n : Nat} {x : List Char} {ch : Char}
    (h : ch ∈ x.drop n) : ch ∈ x := by
  rw [← List.take_append_drop n x]
  exact List.mem_append_right _ h

/-- Every fragment the flaw scanner captures sits immediately after a
case-insensitive `flaw:` marker followed by (skipped) whitespace, is nonempty,
contains no period, and runs up to the next period (or the end of the text). -/
theorem flawScanF_sound : ∀ (fuel : Nat) (l : List Char), ∀ f ∈ flawScanF fuel l,
    ∃ a m w b, l = a ++ m ++ w ++ f ++ b ∧
      m.map Char.toLower = "flaw:".toList ∧
      (∀ ch ∈ w, pyIsSpace ch = true) ∧
      f ≠ [] ∧ (∀ ch ∈ f, ch ≠ '.') ∧
      (b = [] ∨ b.head? = some '.') := by
  intro fuel
  induction fuel with
  | zero =>
    intro l f hf
    simp [flawScanF] at hf
  | succ fuel ih =>
    intro l f hf
    cases l with
    | nil => simp [flawScanF] at hf
    | cons c cs =>
      simp only [flawScanF] at hf
      by_cases hm : matchesCI ("flaw:".toList) (c :: cs) = true
      · rw [if_pos hm] at hf
        by_cases hRe : (((c :: cs).drop 5).takeWhile (fun ch => ch ≠ '.')).isEmpty = true
        · rw [if_pos hRe] at hf
          obtain ⟨a, m, w, b, hl, hmp, hwp, hfn, hfc, hb⟩ := ih cs f hf
          exact ⟨c :: a, m, w, b, by simp [hl], hmp, hwp, hfn, hfc, hb⟩
        · rw [if_neg hRe] at hf
          rcases List.mem_cons.mp hf with hfeq | hfrec
          · -- the captured fragment of the match at this position
            subst hfeq
            have hR5 : ((c :: cs).take 5).map Char.toLower = "flaw:".toList :=
              matchesCI_take ("flaw:".toList) (c :: cs) hm
            have hRne : ((c :: cs).drop 5).takeWhile (fun ch => ch ≠ '.') ≠ [] := by
              intro h
              rw [h] at hRe
              exact hRe rfl
            -- abbreviations matching the scanner's let-bindings
            have h2 : (((c :: cs).drop 5).takeWhile (fun ch => ch ≠ '.')) ++
                ((c :: cs).drop 5).drop
                  ((((c :: cs).drop 5).takeWhile (fun ch => ch ≠ '.')).length) =
                (c :: cs).drop 5 :=
              takeWhile_app_drop _ ((c :: cs).drop 5)
            have h3 : (c :: cs).take 5 ++ (c :: cs).drop 5 = c :: cs :=
              List.take_append_drop 5 (c :: cs)
            refine ⟨[], (c :: cs).take 5,
              (((c :: cs).drop 5).takeWhile (fun ch => ch ≠ '.')).take
                (if ((((c :: cs).drop 5).takeWhile (fun ch => ch ≠ '.')).takeWhile
                      pyIsSpace).length =
                    (((c :: cs).drop 5).takeWhile (fun ch => ch ≠ '.')).length
                  then (((c :: cs).drop 5).takeWhile (fun ch => ch ≠ '.')).length - 1
                  else ((((c :: cs).drop 5).takeWhile (fun ch => ch ≠ '.')).takeWhile
                      pyIsSpace).length),
              ((c :: cs).drop 5).drop
                ((((c :: cs).drop 5).takeWhile (fun ch => ch ≠ '.')).length),
              ?_, hR5, ?_, ?_, ?_, ?_⟩
            · -- the decomposition equation
              have h1 : ∀ kk : Nat,
                  (((c :: cs).drop 5).takeWhile (fun ch => ch ≠ '.')).take kk ++
                    (((c :: cs).drop 5).takeWhile (fun ch => ch ≠ '.')).drop kk =
                  ((c :: cs).drop 5).takeWhile (fun ch => ch ≠ '.') :=
                fun kk => List.take_append_drop kk _
              simp only [List.nil_append, List.append_assoc]
              rw [← List.append_assoc
                ((((c :: cs).drop 5).takeWhile (fun ch => ch ≠ '.')).take _)
                ((((c :: cs).drop 5).takeWhile (fun ch => ch ≠ '.')).drop _),
                h1, h2, h3]
            · -- the skipped part is whitespace
              intro ch hch
              by_cases hW : ((((c :: cs).drop 5).takeWhile (fun ch => ch ≠ '.')).takeWhile
                  pyIsSpace).length =
                  (((c :: cs).drop 5).takeWhile (fun ch => ch ≠ '.')).length
              · rw [if_pos hW] at hch
                have hWR : (((c :: cs).drop 5).takeWhile (fun ch => ch ≠ '.')).takeWhile
                    pyIsSpace = ((c :: cs).drop 5).takeWhile (fun ch => ch ≠ '.') := by
                  have ht := take_len_takeWhile pyIsSpace
                    (((c :: cs).drop 5).takeWhile (fun ch => ch ≠ '.'))
                  rw [hW, List.take_length] at ht
                  exact ht.symm
                have hch' : ch ∈ ((c :: cs).drop 5).takeWhile (fun ch => ch ≠ '.') :=
                  mem_of_mem_take_aux hch
                rw [← hWR] at hch'
                exact List.mem_takeWhile_imp hch'
              · rw [if_neg hW] at hch
                rw [take_len_takeWhile] at hch
                exact List.mem_takeWhile_imp hch
            · -- the capture is nonempty
              have hlen : 0 <
                  (((c :: cs).drop 5).takeWhile (fun ch => ch ≠ '.')).length := by
                cases hx : ((c :: cs).drop 5).takeWhile (fun ch => ch ≠ '.') with
                | nil => exact absurd hx hRne
                | cons y ys => simp [hx]
              have hkl : (if ((((c :: cs).drop 5).takeWhile (fun ch => ch ≠ '.')).takeWhile
                      pyIsSpace).length =
                    (((c :: cs).drop 5).takeWhile (fun ch => ch ≠ '.')).length
                  then (((c :: cs).drop 5).takeWhile (fun ch => ch ≠ '.')).length - 1
                  else ((((c :: cs).drop 5).takeWhile (fun ch => ch ≠ '.')).takeWhile
                      pyIsSpace).length) <
                  (((c :: cs).drop 5).takeWhile (fun ch => ch ≠ '.')).length := by
                have hle := len_takeWhile_le pyIsSpace
                  (((c :: cs).drop 5).takeWhile (fun ch => ch ≠ '.'))
                split_ifs with hW
                · omega
                · omega
              intro hnil
              have := congrArg List.length hnil
              rw [List.length_drop, List.length_nil] at this
              omega
            · -- no period inside the capture
              intro ch hch
              have hch' : ch ∈ ((c :: cs).drop 5).takeWhile (fun ch => ch ≠ '.') :=
                mem_of_mem_drop_aux hch
              have := List.mem_takeWhile_imp hch'
              simpa using this
            · -- the tail starts with a period (or is empty)
              rcases drop_after_takeWhile (fun ch => ch ≠ '.') ((c :: cs).drop 5) with
                hnil | ⟨ch, t, heq, hp⟩
              · exact Or.inl hnil
              · right
                rw [heq]
                have : ch = '.' := by
                  have := of_decide_eq_false hp
                  simpa using this
                rw [this]
                rfl
          · -- fragments found later in the scan
            obtain ⟨a, m, w, b, hl, hmp, hwp, hfn, hfc, hb⟩ :=
              ih (((c :: cs).drop 5).drop
                ((((c :: cs).drop 5).takeWhile (fun ch => ch ≠ '.')).length)) f hfrec
            refine ⟨(c :: cs).take 5 ++
                (((c :: cs).drop 5).takeWhile (fun ch => ch ≠ '.')) ++ a,
              m, w, b, ?_, hmp, hwp, hfn, hfc, hb⟩
            have h2 : (((c :: cs).drop 5).takeWhile (fun ch => ch ≠ '.')) ++
                ((c :: cs).drop 5).drop
                  ((((c :: cs).drop 5).takeWhile (fun ch => ch ≠ '.')).length) =
                (c :: cs).drop 5 :=
              takeWhile_app_drop _ ((c :: cs).drop 5)
            have h3 : (c :: cs).take 5 ++ (c :: cs).drop 5 = c :: cs :=
              List.take_append_drop 5 (c :: cs)
            simp only [List.append_assoc] at hl ⊢
            rw [← hl, h2, h3]
      · rw [if_neg hm] at hf
        obtain ⟨a, m, w, b, hl, hmp, hwp, hfn, hfc, hb⟩ := ih cs f hf
        exact ⟨c :: a, m, w, b, by simp [hl], hmp, hwp, hfn, hfc, hb⟩

theorem splitLastUsableColon_sound : ∀ (S b a : List Char),
    splitLastUsableColon S = some (b, a) → S = b ++ ':' :: a ∧ a ≠ [] := by
  intro S
  induction S with
  | nil => intro b a h; cases h
  | cons c cs ih =>
    intro b a h
    simp only [splitLastUsableColon] at h
    cases hcs : splitLastUsableColon cs with
    | some pr =>
      rcases pr with ⟨b', a'⟩
      rw [hcs] at h
      obtain ⟨he, hne⟩ := ih b' a' hcs
      cases h
      exact ⟨by rw [he]; rfl, hne⟩
    | none =>
      rw [hcs] at h
      split_ifs at h with hcond
      · simp only [Bool.and_eq_true, decide_eq_true_eq, Bool.not_eq_true',
          List.isEmpty_eq_false] at hcond
        cases h
        exact ⟨by rw [hcond.1]; rfl, hcond.2⟩

/-- Every fragment the suggestion scanner captures sits immediately after a
case-insensitive `suggest` marker, a period-free run, a colon, and (skipped)
whitespace; it is nonempty, period-free, and runs up to the next period. -/
theorem suggScanF_sound : ∀ (fuel : Nat) (l : List Char), ∀ f ∈ suggScanF fuel l,
    ∃ a m mid w b, l = a ++ m ++ mid ++ [':'] ++ w ++ f ++ b ∧
      m.map Char.toLower = "suggest".toList ∧
      (∀ ch ∈ mid, ch ≠ '.') ∧
      (∀ ch ∈ w, pyIsSpace ch = true) ∧
      f ≠ [] ∧ (∀ ch ∈ f, ch ≠ '.') ∧
      (b = [] ∨ b.head? = some '.') := by
  intro fuel
  induction fuel with
  | zero =>
    intro l f hf
    simp [suggScanF] at hf
  | succ fuel ih =>
    intro l f hf
    cases l with
    | nil => simp [suggScanF] at hf
    | cons c cs =>
      simp only [suggScanF] at hf
      by_cases hm : matchesCI ("suggest".toList) (c :: cs) = true
      · rw [if_pos hm] at hf
        cases hsplit : splitLastUsableColon
            (((c :: cs).drop 7).takeWhile (fun ch => ch ≠ '.')) with
        | none =>
          rw [hsplit] at hf
          obtain ⟨a, m, mid, w, b, hl, hmp, hmid, hwp, hfn, hfc, hb⟩ := ih cs f hf
          exact ⟨c :: a, m, mid, w, b, by simp [hl], hmp, hmid, hwp, hfn, hfc, hb⟩
        | some pr =>
          rcases pr with ⟨b0, a0⟩
          rw [hsplit] at hf
          obtain ⟨hS, ha0⟩ := splitLastUsableColon_sound _ _ _ hsplit
          have hf2 : f ∈ (a0.drop (if (a0.takeWhile pyIsSpace).length = a0.length
                then a0.length - 1 else (a0.takeWhile pyIsSpace).length)) ::
              suggScanF fuel (((c :: cs).drop 7).drop
                ((((c :: cs).drop 7).takeWhile (fun ch => ch ≠ '.')).length)) := hf
          have hm7 : ((c :: cs).take 7).map Char.toLower = "suggest".toList :=
            matchesCI_take ("suggest".toList) (c :: cs) hm
          have h2 : (((c :: cs).drop 7).takeWhile (fun ch => ch ≠ '.')) ++
              ((c :: cs).drop 7).drop
                ((((c :: cs).drop 7).takeWhile (fun ch => ch ≠ '.')).length) =
              (c :: cs).drop 7 :=
            takeWhile_app_drop _ ((c :: cs).drop 7)
          have h3 : (c :: cs).take 7 ++ (c :: cs).drop 7 = c :: cs :=
            List.take_append_drop 7 (c :: cs)
          rcases List.mem_cons.mp hf2 with hfeq | hfrec
          · subst hfeq
            refine ⟨[], (c :: cs).take 7, b0,
              a0.take (if (a0.takeWhile pyIsSpace).length = a0.length
                then a0.length - 1 else (a0.takeWhile pyIsSpace).length),
              ((c :: cs).drop 7).drop
                ((((c :: cs).drop 7).takeWhile (fun ch => ch ≠ '.')).length),
              ?_, hm7, ?_, ?_, ?_, ?_, ?_⟩
            · -- decomposition equation
              simp only [List.nil_append, List.append_assoc, List.singleton_append,
                List.cons_append]
              rw [← List.append_assoc
                (a0.take (if (a0.takeWhile pyIsSpace).length = a0.length
                  then a0.length - 1 else (a0.takeWhile pyIsSpace).length))
                (a0.drop (if (a0.takeWhile pyIsSpace).length = a0.length
                  then a0.length - 1 else (a0.takeWhile pyIsSpace).length)),
                List.take_append_drop]
              rw [show b0 ++ ':' :: (a0 ++ ((c :: cs).drop 7).drop
                    ((((c :: cs).drop 7).takeWhile (fun ch => ch ≠ '.')).length)) =
                  (b0 ++ ':' :: a0) ++ ((c :: cs).drop 7).drop
                    ((((c :: cs).drop 7).takeWhile (fun ch => ch ≠ '.')).length)
                by simp [List.append_assoc, List.cons_append]]
              rw [← hS, h2, h3]
            · -- mid contains no period
              intro ch hch
              have hchS : ch ∈ ((c :: cs).drop 7).takeWhile (fun ch => ch ≠ '.') := by
                rw [hS]
                exact List.mem_append_left _ hch
              have := List.mem_takeWhile_imp hchS
              simpa using this
            · -- the skipped part is whitespace
              intro ch hch
              by_cases hW : (a0.takeWhile pyIsSpace).length = a0.length
              · rw [if_pos hW] at hch
                have hWR : a0.takeWhile pyIsSpace = a0 := by
                  have ht := take_len_takeWhile pyIsSpace a0
                  rw [hW, List.take_length] at ht
                  exact ht.symm
                have hch' : ch ∈ a0 := mem_of_mem_take_aux hch
                rw [← hWR] at hch'
                exact List.mem_takeWhile_imp hch'
              · rw [if_neg hW] at hch
                rw [take_len_takeWhile] at hch
                exact List.mem_takeWhile_imp hch
            · -- the capture is nonempty
              have hlen : 0 < a0.length := by
                cases hx : a0 with
                | nil => exact absurd hx ha0
                | cons y ys => simp [hx]
              have hkl : (if (a0.takeWhile pyIsSpace).length = a0.length
                  then a0.length - 1 else (a0.takeWhile pyIsSpace).length) <
                  a0.length := by
                have hle := len_takeWhile_le pyIsSpace a0
                split_ifs with hW
                · omega
                · omega
              intro hnil
              have := congrArg List.length hnil
              rw [List.length_drop, List.length_nil] at this
              omega
            · -- no period inside the capture
              intro ch hch
              have hcha : ch ∈ a0 := mem_of_mem_drop_aux hch
              have hchS : ch ∈ ((c :: cs).drop 7).takeWhile (fun ch => ch ≠ '.') := by
                rw [hS]
                exact List.mem_append_right _ (List.mem_cons_of_mem _ hcha)
              have := List.mem_takeWhile_imp hchS
              simpa using this
            · -- the tail starts with a period (or is empty)
              rcases drop_after_takeWhile (fun ch => ch ≠ '.') ((c :: cs).drop 7) with
                hnil | ⟨ch, t, heq, hp⟩
              · exact Or.inl hnil
              · right
                rw [heq]
                have : ch = '.' := by
                  have := of_decide_eq_false hp
                  simpa using this
                rw [this]
                rfl
          · -- fragments found later in the scan
            obtain ⟨a, m, mid, w, b, hl, hmp, hmid, hwp, hfn, hfc, hb⟩ :=
              ih (((c :: cs).drop 7).drop
                ((((c :: cs).drop 7).takeWhile (fun ch => ch ≠ '.')).length)) f hfrec
            refine ⟨(c :: cs).take 7 ++
                (((c :: cs).drop 7).takeWhile (fun ch => ch ≠ '.')) ++ a,
              m, mid, w, b, ?_, hmp, hmid, hwp, hfn, hfc, hb⟩
            simp only [List.append_assoc] at hl ⊢
            rw [← hl, h2, h3]
      · rw [if_neg hm] at hf
        obtain ⟨a, m, mid, w, b, hl, hmp, hmid, hwp, hfn, hfc, hb⟩ := ih cs f hf
        exact ⟨c :: a, m, mid, w, b, by simp [hl], hmp, hmid, hwp, hfn, hfc, hb⟩

/-- Completeness side for flaws: if a case-insensitive `flaw:` marker occurs
followed by at least one non-period character, the scan captures something. -/
theorem flawScanF_ne_nil : ∀ (fuel : Nat) (l : List Char), l.length ≤ fuel →
    ∀ (a m : List Char) (ch : Char) (b : List Char),
      l = a ++ m ++ ch :: b → m.map Char.toLower = "flaw:".toList → ch ≠ '.' →
      flawScanF fuel l ≠ [] := by
  intro fuel
  induction fuel with
  | zero =>
    intro l hle a m ch b hl hm hch
    subst hl
    simp [List.length_append] at hle
  | succ fuel ih =>
    intro l hle a m ch b hl hm hch
    cases l with
    | nil => simp at hl
    | cons c cs =>
      have hm5 : m.length = 5 := by
        have := congrArg List.length hm
        simpa using this
      have hcs : cs.length ≤ fuel := by
        simp only [List.length_cons] at hle
        omega
      simp only [flawScanF]
      by_cases hmm : matchesCI ("flaw:".toList) (c :: cs) = true
      · rw [if_pos hmm]
        by_cases hRe : (((c :: cs).drop 5).takeWhile (fun ch => ch ≠ '.')).isEmpty = true
        · rw [if_pos hRe]
          cases a with
          | nil =>
            exfalso
            have hdrop : (c :: cs).drop 5 = ch :: b := by
              rw [hl]
              simp only [List.nil_append]
              exact List.drop_left' hm5
            rw [hdrop, List.takeWhile_cons_of_pos (by simpa using hch)] at hRe
            simp at hRe
          | cons a0 as =>
            have hl' : cs = as ++ m ++ ch :: b := by
              simp only [List.cons_append, List.append_assoc, List.cons.injEq] at hl
              simp only [List.append_assoc]
              exact hl.2
            exact ih cs hcs as m ch b hl' hm hch
        · rw [if_neg hRe]
          simp
      · rw [if_neg hmm]
        cases a with
        | nil =>
          exfalso
          apply hmm
          have he : c :: cs = m ++ (ch :: b) := by simpa using hl
          rw [he, ← hm]
          exact matchesCI_complete m (ch :: b)
        | cons a0 as =>
          have hl' : cs = as ++ m ++ ch :: b := by
            simp only [List.cons_append, List.append_assoc, List.cons.injEq] at hl
            simp only [List.append_assoc]
            exact hl.2
          exact ih cs hcs as m ch b hl' hm hch

/-! ### C8: the claim -/

/-- C8: the free-text critique parser marks the critique approved exactly when
the text contains "approved" or "approve" case-insensitively anywhere; every
extracted flaw is a nonempty period-free fragment that follows a
case-insensitive `flaw:` marker (after skipped whitespace) and runs up to the
next period (or the end); every extracted suggestion likewise follows a
case-insensitive `suggest…:` marker; nothing is extracted when no marker
occurs, something is extracted when a `flaw:` marker with a following
non-period character occurs; and the raw text is retained unchanged. -/
theorem C8_critique_parsing (c : String) :
    ((parse_critique_response c).is_approved = true ↔
      occursCI ("approved".toList) c ∨ occursCI ("approve".toList) c) ∧
    (parse_critique_response c).raw_critique = c ∧
    (∀ f ∈ (parse_critique_response c).flaws, ∃ a m w b,
      c.toList = a ++ m ++ w ++ f.toList ++ b ∧
      m.map Char.toLower = "flaw:".toList ∧
      (∀ ch ∈ w, pyIsSpace ch = true) ∧
      f.toList ≠ [] ∧ (∀ ch ∈ f.toList, ch ≠ '.') ∧
      (b = [] ∨ b.head? = some '.')) ∧
    (∀ f ∈ (parse_critique_response c).suggestions, ∃ a m mid w b,
      c.toList = a ++ m ++ mid ++ [':'] ++ w ++ f.toList ++ b ∧
      m.map Char.toLower = "suggest".toList ∧
      (∀ ch ∈ mid, ch ≠ '.') ∧
      (∀ ch ∈ w, pyIsSpace ch = true) ∧
      f.toList ≠ [] ∧ (∀ ch ∈ f.toList, ch ≠ '.') ∧
      (b = [] ∨ b.head? = some '.')) ∧
    (¬ occursCI ("flaw:".toList) c → (parse_critique_response c).flaws = []) ∧
    (¬ occursCI ("suggest".toList) c → (parse_critique_response c).suggestions = []) ∧
    ((∃ a m ch b, c.toList = a ++ m ++ ch :: b ∧
        m.map Char.toLower = "flaw:".toList ∧ ch ≠ '.') →
      (parse_critique_response c).flaws ≠ []) := by
  have hg1 := guard_iff_occursCI ("approved".toList) (by decide) (by decide) c
  have hg2 := guard_iff_occursCI ("approve".toList) (by decide) (by decide) c
  have hg3 := guard_iff_occursCI ("flaw:".toList) (by decide) (by decide) c
  have hg4 := guard_iff_occursCI ("suggest".toList) (by decide) (by decide) c
  have hfl : (parse_critique_response c).flaws =
      if hasSubstr ("flaw:".toList) (pyStrip (pyLower c.toList)) then
        (flawScan c.toList).map (fun l => String.mk l)
      else [] := rfl
  have hsg : (parse_critique_response c).suggestions =
      if hasSubstr ("suggest".toList) (pyStrip (pyLower c.toList)) then
        (suggScan c.toList).map (fun l => String.mk l)
      else [] := rfl
  refine ⟨?_, rfl, ?_, ?_, ?_, ?_, ?_⟩
  · have happ : (parse_critique_response c).is_approved =
        (hasSubstr ("approved".toList) (pyStrip (pyLower c.toList)) ||
         hasSubstr ("approve".toList) (pyStrip (pyLower c.toList))) := rfl
    rw [happ, Bool.or_eq_true, hg1, hg2]
  · intro f hf
    rw [hfl] at hf
    by_cases hguard : hasSubstr ("flaw:".toList) (pyStrip (pyLower c.toList)) = true
    · rw [if_pos hguard] at hf
      obtain ⟨f', hf', rfl⟩ := List.mem_map.mp hf
      obtain ⟨a, m, w, b, hl, hmp, hwp, hfn, hfc, hb⟩ :=
        flawScanF_sound (c.toList.length) c.toList f' hf'
      exact ⟨a, m, w, b, hl, hmp, hwp, hfn, hfc, hb⟩
    · rw [if_neg hguard] at hf
      cases hf
  · intro f hf
    rw [hsg] at hf
    by_cases hguard : hasSubstr ("suggest".toList) (pyStrip (pyLower c.toList)) = true
    · rw [if_pos hguard] at hf
      obtain ⟨f', hf', rfl⟩ := List.mem_map.mp hf
      obtain ⟨a, m, mid, w, b, hl, hmp, hmid, hwp, hfn, hfc, hb⟩ :=
        suggScanF_sound (c.toList.length) c.toList f' hf'
      exact ⟨a, m, mid, w, b, hl, hmp, hmid, hwp, hfn, hfc, hb⟩
    · rw [if_neg hguard] at hf
      cases hf
  · intro hocc
    rw [hfl, if_neg (fun h => hocc (hg3.mp h))]
  · intro hocc
    rw [hsg, if_neg (fun h => hocc (hg4.mp h))]
  · rintro ⟨a, m, ch, b, hdec, hmp, hch⟩
    have hocc : occursCI ("flaw:".toList) c := ⟨a, m, ch :: b, hdec, hmp⟩
    rw [hfl, if_pos (hg3.mpr hocc)]
    have hscan : flawScan c.toList ≠ [] :=
      flawScanF_ne_nil (c.toList.length) c.toList (le_refl _) a m ch b hdec hmp hch
    intro hmapnil
    exact hscan (List.map_eq_nil_iff.mp hmapnil)

/-- C8 witness: the parser's behaviour on concrete critiques, through the
theorem. -/
theorem C8_critique_parsing_witness :
    ((parse_critique_response "APPROVED").is_approved = true ↔
      occursCI ("approved".toList) "APPROVED" ∨ occursCI ("approve".toList) "APPROVED") ∧
    (∃ a m w b, ("FLAW: bad".toList : List Char) = a ++ m ++ w ++ ("bad" : String).toList ++ b ∧
      m.map Char.toLower = "flaw:".toList ∧
      (∀ ch ∈ w, pyIsSpace ch = true) ∧
      ("bad" : String).toList ≠ [] ∧ (∀ ch ∈ ("bad" : String).toList, ch ≠ '.') ∧
      (b = [] ∨ b.head? = some '.')) ∧
    (parse_critique_response "all good").flaws = [] ∧
    (parse_critique_response "FLAW: bad").flaws ≠ [] :=
  ⟨(C8_critique_parsing "APPROVED").1,
   (C8_critique_parsing "FLAW: bad").2.2.1 "bad" (by decide),
   (C8_critique_parsing "all good").2.2.2.2.1
     (fun hocc => absurd
       ((guard_iff_occursCI ("flaw:".toList) (by decide) (by decide) "all good").mpr hocc)
       (by decide)),
   (C8_critique_parsing "FLAW: bad").2.2.2.2.2.2
     ⟨[], "FLAW:".toList, ' ', "bad".toList, by decide, by decide, by decide⟩⟩

end EchoCheck
